import Mathlib

/-
Verification development for the script-interpreter core of the
playwright-extension repository (src/src/core/interpreter.ts).

The interpreter is a tree-walking evaluator over an acorn-produced
JavaScript AST, executing against a proxied host object.  This file embeds
the evaluator shallowly:

* AST nodes become the inductive `Ast` (plus the small auxiliary pattern
  types used by variable declarations); unsupported node kinds are
  represented by `Ast.other kind`, mirroring the evaluator's default case.
* JavaScript values become the inductive `Value`.  Numbers are modelled as
  integers (the claims under study only exercise integer arithmetic; the
  float-only values NaN and the infinities are folded into the `nan`
  marker).  Mutable objects and arrays live in an explicit heap and are
  referred to by address, so reference semantics (aliasing, `===` on
  references) is preserved.
* Environments (`interface Environment`) are frames in an explicit store
  (`St.envs`), referred to by index, so the mutation performed by
  assignment through the scope chain is visible through every reference to
  a frame, exactly as with the source's shared mutable objects.
* The asynchronous layer is collapsed: every host call returns an already
  settled result, and `await v` yields `v`.  This preserves the sequential
  ordering of effects, which is what the specification guarantees.
* Effects (console output, invocations of the context log callback, host
  object actions) are recorded in an ordered trace in the state.
* Divergence (the source's unbounded loops and recursion) is modelled with
  fuel: every evaluator function consumes fuel and yields the absolutely
  propagating `Out.timeout` when it runs out.  `timeout` is never caught,
  not even by try/finally, since real divergence runs no finalizer.
* The external acorn parser and the external host object are parameters: a
  parse function `String → Except String Ast` and a `Ctx` bundling the
  host object's shape and its method behaviour.
-/

/-- Primitive literal values as they occur on acorn `Literal` nodes. -/
inductive Prim where
  | num (n : Int)
  | str (s : String)
  | bool (b : Bool)
  | nullLit
deriving Repr

/-- Shape of the opaque host object (`context.page`): a tree of data
properties, nested objects, and asynchronous methods.  Method behaviour is
supplied externally through `Ctx.hostCall`, keyed by the method id. -/
inductive HostVal where
  | prim (p : Prim)
  | obj (fields : List (String × HostVal))
  | method (id : Nat)
deriving Repr

/-- Function parameter node: the source checks `params[i].type !==
'Identifier'` at call time, so non-identifier parameters are kept with
their node kind. -/
inductive Param where
  | id (name : String)
  | other (kind : String)
deriving Repr

/-- Key of a property inside an ObjectPattern (`property.key`). -/
inductive PatKey where
  | id (name : String)
  | other (kind : String)
deriving Repr

/-- Value of a property inside an ObjectPattern (`property.value`): either
a direct identifier binding or an unsupported nested pattern kept with its
node kind. -/
inductive PatTarget where
  | id (name : String)
  | other (kind : String)
deriving Repr

/-- Element of an ArrayPattern (`elements[i]`); `Option` at the use site
models holes. -/
inductive ArrElemPat where
  | id (name : String)
  | other (kind : String)
deriving Repr

/-- Binding target of a variable declarator (`declarator.id`). -/
inductive Pattern where
  | id (name : String)
  | objPat (props : List (PatKey × PatTarget))
  | arrPat (elems : List (Option ArrElemPat))
  | other (kind : String)
deriving Repr

/-- Catch-clause parameter (`node.handler.param`): the source binds it only
when its type is `Identifier`. -/
inductive CParam where
  | id (name : String)
  | other (kind : String)
deriving Repr

/-- Property of an ObjectExpression, covering the four key shapes the
source distinguishes (identifier key, literal key, computed key, anything
else). -/
inductive ObjProp (α : Type) where
  | idKey (k : String) (v : α)
  | litKey (k : Prim) (v : α)
  | computedKey (k : α) (v : α)
  | otherKey (kind : String) (v : α)
deriving Repr

/-- Acorn AST nodes, restricted to the kinds the evaluator's switch
handles; every other kind is `other` and trips the default case.  The
source's `MemberExpression` with its `computed` flag is split into
`memberDot` (`obj.name`) and `memberComputed` (`obj[expr]`), and
`UpdateExpression`'s `prefix` flag is the Boolean `pre`. -/
inductive Ast where
  | program (body : List Ast)
  | exprStmt (e : Ast)
  | call (callee : Ast) (args : List Ast)
  | memberDot (obj : Ast) (name : String)
  | memberComputed (obj : Ast) (propE : Ast)
  | ident (name : String)
  | lit (p : Prim)
  | awaitE (arg : Ast)
  | varDecl (decls : List (Pattern × Option Ast))
  | block (body : List Ast)
  | ifStmt (test : Ast) (cons : Ast) (alt : Option Ast)
  | binop (op : String) (l : Ast) (r : Ast)
  | logical (op : String) (l : Ast) (r : Ast)
  | unary (op : String) (arg : Ast)
  | forStmt (ini : Option Ast) (test : Option Ast) (upd : Option Ast) (body : Ast)
  | whileStmt (test : Ast) (body : Ast)
  | objExpr (props : List (ObjProp Ast))
  | arrExpr (elems : List (Option Ast))
  | funcDecl (name : String) (params : List Param) (body : Ast)
  | arrowFn (params : List Param) (body : Ast)
  | returnStmt (arg : Option Ast)
  | assign (op : String) (lhs : Ast) (rhs : Ast)
  | update (op : String) (pre : Bool) (arg : Ast)
  | templateLit (quasis : List String) (exprs : List Ast)
  | cond (test : Ast) (cons : Ast) (alt : Ast)
  | tryStmt (blk : Ast) (handler : Option (Option CParam × Ast)) (finalizer : Option Ast)
  | other (kind : String)
deriving Repr

/-- Which of the four console methods of the seeded `console` object a
guest call goes through (they differ only in the message prefix). -/
inductive ConsoleKind where
  | log
  | error
  | warn
  | info
deriving Repr

/-- Runtime values.  `objRef`/`arrRef` are heap addresses; `closure` is a
function value capturing its defining environment by frame index;
`hostMethod` is the async forwarding function the dynamic proxy's `get`
trap returns for a method property; `proxy` is `createDynamicProxy(target,
path)`; `errObj` is a JavaScript `Error` instance (the interpreter's
internal `throw new Error(msg)` values); `returnVal` is the `ReturnValue`
sentinel class. -/
inductive Value where
  | undef
  | nullV
  | nan
  | num (n : Int)
  | str (s : String)
  | bool (b : Bool)
  | objRef (a : Nat)
  | arrRef (a : Nat)
  | closure (params : List Param) (body : Ast) (env : Nat)
  | hostMethod (id : Nat) (path : String)
  | proxy (fields : List (String × HostVal)) (path : String)
  | logFn
  | consoleObj
  | consoleFn (k : ConsoleKind)
  | errObj (msg : String)
  | returnVal (v : Value)
deriving Repr

/-- One observable event: a `console.*` line emitted by the interpreter
machinery itself, an invocation of the caller-supplied `context.log`
callback with its argument, or an action performed by the real host
object. -/
inductive LogEntry where
  | console (s : String)
  | ctx (v : Value)
  | host (s : String)
deriving Repr

/-- One heap cell: a plain object (property list) or an array. -/
inductive HeapCell where
  | objCell (fields : List (String × Value))
  | arrCell (elems : List Value)
deriving Repr

/-- One scope-chain frame (`interface Environment`): the `variables`
record and the parent reference.  Property lookup on the source's plain
record object is modelled as own-property lookup only (the prototype chain
of `{}` is outside the model; no claim names an `Object.prototype`
member). -/
structure Frame where
  vars : List (String × Value)
  parent : Option Nat
deriving Repr

/-- Global interpreter state: the store of environment frames, the object
heap, and the ordered effect trace. -/
structure St where
  envs : List Frame
  heap : List HeapCell
  trace : List LogEntry
deriving Repr

/-- Outcome of an evaluation step: normal completion, a thrown JavaScript
value, or fuel exhaustion standing for divergence. -/
inductive Out (α : Type) where
  | ok (v : α)
  | err (e : Value)
  | timeout
deriving Repr

/-- Result of an evaluation: final state plus outcome. -/
abbrev Res (α : Type) := St × Out α

/-- External collaborators of one execution: the host object's shape (the
fields of `context.page`) and the behaviour of its methods.  A host call
returns the effect entries the real method performs plus its settled
result (resolution or rejection). -/
structure Ctx where
  pageFields : List (String × HostVal)
  hostCall : Nat → List Value → List LogEntry × Except Value Value

/-- Association-list lookup (first binding wins), the own-property read on
the source's record objects. -/
def lookupAssoc {α : Type} : List (String × α) → String → Option α
  | [], _ => none
  | (k, v) :: rest, name => if k = name then some v else lookupAssoc rest name

/-- Association-list update: overwrite the first binding of the name, or
append a new one (JavaScript property insertion order). -/
def setAssoc {α : Type} : List (String × α) → String → α → List (String × α)
  | [], name, v => [(name, v)]
  | (k, w) :: rest, name, v =>
      if k = name then (k, v) :: rest else (k, w) :: setAssoc rest name v

/-- Association-list removal of the first binding of the name (the
`delete object[property]` effect). -/
def removeAssoc {α : Type} : List (String × α) → String → List (String × α)
  | [], _ => []
  | (k, w) :: rest, name =>
      if k = name then rest else (k, w) :: removeAssoc rest name

/-- Source `createEnvironment(variables, parent)`: allocate a fresh frame
in the store and return its index. -/
def createEnvironment (st : St) (vars : List (String × Value)) (parent : Option Nat) :
    St × Nat :=
  ({ st with envs := st.envs ++ [⟨vars, parent⟩] }, st.envs.length)

/-- Source `define(env, name, value)`: bind in the given frame, always in
that frame, overwriting an existing binding. -/
def define (st : St) (r : Nat) (name : String) (v : Value) : St :=
  match st.envs[r]? with
  | none => st
  | some fr => { st with envs := st.envs.set r { fr with vars := setAssoc fr.vars name v } }

/-- Source `lookup(env, name)`: walk the parent chain outward; `none`
means no frame in the chain defines the name (the caller raises the
undefined-variable error).  The fuel bounds the chain walk; every chain
built by `createEnvironment` is acyclic, so `st.envs.length` fuel always
suffices. -/
def lookupEnv (envs : List Frame) : Nat → Nat → String → Option Value
  | 0, _, _ => none
  | fuel+1, r, name =>
      match envs[r]? with
      | none => none
      | some fr =>
          match lookupAssoc fr.vars name with
          | some v => some v
          | none =>
              match fr.parent with
              | some p => lookupEnv envs fuel p name
              | none => none

/-- Frame indices visited by an outward walk of the scope chain starting
at the given reference, in visit order (purely structural; used to state
which frame an assignment mutates). -/
def chainRefs (envs : List Frame) : Nat → Option Nat → List Nat
  | 0, _ => []
  | _, none => []
  | fuel+1, some r =>
      match envs[r]? with
      | none => []
      | some fr => r :: chainRefs envs fuel fr.parent

/-- Does the frame at the given index define the name in its own
`variables` record? -/
def frameDefines (envs : List Frame) (r : Nat) (name : String) : Bool :=
  match envs[r]? with
  | none => false
  | some fr => (lookupAssoc fr.vars name).isSome

/-- JavaScript truthiness over the modelled values (`undefined`, `null`,
`false`, `0`, `NaN` and the empty string are falsy; every object,
function and remaining primitive is truthy). -/
def truthy : Value → Bool
  | .undef => false
  | .nullV => false
  | .nan => false
  | .num n => n ≠ 0
  | .str s => s ≠ ""
  | .bool b => b
  | _ => true

/-- Whitespace trim on both ends, as a structurally computable list
operation (the behaviour of the JavaScript `trim`). -/
def jsTrim (s : String) : String :=
  (((s.toList.dropWhile Char.isWhitespace).reverse.dropWhile Char.isWhitespace).reverse).asString

/-- Prefix test as a structurally computable list operation (the
behaviour of the JavaScript `startsWith` / the regex `^kw` test). -/
def strStartsWith (s pre : String) : Bool :=
  pre.toList.isPrefixOf s.toList

/-- Split on newline characters, keeping empty pieces (the behaviour of
the JavaScript `split('\n')`). -/
def splitLinesAux : List Char → List Char → List String
  | [], acc => [acc.reverse.asString]
  | c :: rest, acc =>
      if c = '\n' then acc.reverse.asString :: splitLinesAux rest []
      else splitLinesAux rest (c :: acc)

/-- Split a string into its newline-separated lines. -/
def splitLines (s : String) : List String := splitLinesAux s.toList []

/-- Digit-string parse, structurally computable. -/
def digitsToNat : List Char → Nat → Option Nat
  | [], acc => some acc
  | c :: rest, acc =>
      if c.isDigit then digitsToNat rest (acc * 10 + (c.toNat - 48)) else none

/-- Parse of a nonempty all-digit character list (the behaviour of
`toNat?`). -/
def charsToNat? (cs : List Char) : Option Nat :=
  match cs with
  | [] => none
  | _ => digitsToNat cs 0

/-- Numeric string parse for `ToNumber` on strings: the empty (trimmed)
string is `0`, an optionally signed digit string is its value, anything
else is NaN (`none`).  Fractional and exotic numeric literals are outside
the integer number model. -/
def parseNumStr (s : String) : Option Int :=
  let t := jsTrim s
  if t = "" then some 0
  else if strStartsWith t "-" then (charsToNat? (t.toList.drop 1)).map (fun n => -(n : Int))
  else (charsToNat? t.toList).map Int.ofNat

/-- JavaScript `ToNumber`, restricted to the modelled values; `none` is
NaN.  Objects would go through `ToPrimitive`, which the model does not
reproduce (no claim coerces an object to a number). -/
def toNumber : Value → Option Int
  | .num n => some n
  | .bool b => some (if b then 1 else 0)
  | .nullV => some 0
  | .str s => parseNumStr s
  | _ => none

/-- Two's-complement 32-bit wrap of an integer (`ToInt32`). -/
def wrap32 (n : Int) : Int :=
  let m := ((n % 4294967296) + 4294967296) % 4294967296
  if m < 2147483648 then m else m - 4294967296

/-- Unsigned 32-bit representative of an integer, as a natural number. -/
def toUint32Nat (n : Int) : Nat :=
  (((n % 4294967296) + 4294967296) % 4294967296).toNat

/-- The `ToInt32` of a value (NaN converts to 0, as in JavaScript). -/
def toInt32 (v : Value) : Int :=
  match toNumber v with
  | none => 0
  | some n => wrap32 n

/-- The `ToUint32` of a value as a natural number. -/
def toUint32 (v : Value) : Nat :=
  match toNumber v with
  | none => 0
  | some n => toUint32Nat n

/-- Result kind of the `typeof` operator on the modelled values. -/
def jsTypeof : Value → String
  | .undef => "undefined"
  | .nullV => "object"
  | .nan => "number"
  | .num _ => "number"
  | .str _ => "string"
  | .bool _ => "boolean"
  | .closure _ _ _ => "function"
  | .hostMethod _ _ => "function"
  | .logFn => "function"
  | .consoleFn _ => "function"
  | _ => "object"

/-- JavaScript `String(v)` conversion over the modelled values.  Arrays
stringify by joining their elements (null/undefined becoming empty), so
the heap is consulted; the fuel bounds recursion through the heap.
Function source text is unavailable in the model, so function values
stringify to a fixed marker (no claim observes a function's string
form). -/
def jsToString (heap : List HeapCell) : Nat → Value → String
  | _, .undef => "undefined"
  | _, .nullV => "null"
  | _, .nan => "NaN"
  | _, .num n => toString n
  | _, .str s => s
  | _, .bool b => if b then "true" else "false"
  | _, .objRef _ => "[object Object]"
  | 0, .arrRef _ => ""
  | fuel+1, .arrRef a =>
      match heap[a]? with
      | some (.arrCell elems) =>
          String.intercalate ","
            (elems.map (fun v =>
              match v with
              | .undef => ""
              | .nullV => ""
              | w => jsToString heap fuel w))
      | _ => ""
  | _, .closure _ _ _ => "[function]"
  | _, .hostMethod _ _ => "[function]"
  | _, .logFn => "[function]"
  | _, .consoleFn _ => "[function]"
  | _, .consoleObj => "[object Object]"
  | _, .proxy _ _ => "[object Object]"
  | _, .errObj m => "Error: " ++ m
  | _, .returnVal _ => "[object Object]"

/-- JSON string escaping of one character (quote, backslash, newline). -/
def escChar (c : Char) : String :=
  if c = '"' then "\\\""
  else if c = '\\' then "\\\\"
  else if c = '\n' then "\\n"
  else String.singleton c

/-- JSON string quoting. -/
def jsonQuote (s : String) : String :=
  "\"" ++ String.join (s.toList.map escChar) ++ "\""

/-- JavaScript `JSON.stringify(v)`; `none` is the undefined result (for
`undefined` and function values).  NaN serialises to `null`, plain
`Error` instances and the proxy's empty dummy target serialise to an
empty object.  The fuel bounds recursion through the heap. -/
def jsonStringify (heap : List HeapCell) : Nat → Value → Option String
  | _, .undef => none
  | _, .nullV => some "null"
  | _, .nan => some "null"
  | _, .num n => some (toString n)
  | _, .str s => some (jsonQuote s)
  | _, .bool b => some (if b then "true" else "false")
  | _, .closure _ _ _ => none
  | _, .hostMethod _ _ => none
  | _, .logFn => none
  | _, .consoleFn _ => none
  | 0, .objRef _ => some "\x7b\x7d"
  | fuel+1, .objRef a =>
      match heap[a]? with
      | some (.objCell fields) =>
          let parts := fields.filterMap (fun kv =>
            (jsonStringify heap fuel kv.2).map (fun s => jsonQuote kv.1 ++ ":" ++ s))
          some ("\x7b" ++ String.intercalate "," parts ++ "\x7d")
      | _ => some "\x7b\x7d"
  | 0, .arrRef _ => some "[]"
  | fuel+1, .arrRef a =>
      match heap[a]? with
      | some (.arrCell elems) =>
          let parts := elems.map (fun v => (jsonStringify heap fuel v).getD "null")
          some ("[" ++ String.intercalate "," parts ++ "]")
      | _ => some "[]"
  | _, .consoleObj => some "\x7b\x7d"
  | _, .proxy _ _ => some "\x7b\x7d"
  | _, .errObj _ => some "\x7b\x7d"
  | _, .returnVal _ => some "\x7b\x7d"

/-- Strict equality `===` over the modelled values.  References compare by
address.  Function identity is not modelled: two function values compare
unequal (no claim compares functions). -/
def strictEq : Value → Value → Bool
  | .undef, .undef => true
  | .nullV, .nullV => true
  | .num a, .num b => a = b
  | .str a, .str b => a = b
  | .bool a, .bool b => a = b
  | .objRef a, .objRef b => a = b
  | .arrRef a, .arrRef b => a = b
  | _, _ => false

/-- Loose equality `==` over the modelled values: strict equality on
same-kind primitives and references, `null == undefined`, numeric
coercion between numbers, strings and booleans.  Object-to-primitive
comparison would go through `ToPrimitive` and is not reproduced (it
compares unequal here; no claim exercises it). -/
def looseEq : Value → Value → Bool
  | .nullV, .undef => true
  | .undef, .nullV => true
  | .num a, .str s => match parseNumStr s with | some b => a = b | none => false
  | .str s, .num b => match parseNumStr s with | some a => a = b | none => false
  | .bool a, .num b => (if a then (1 : Int) else 0) = b
  | .num a, .bool b => a = (if b then (1 : Int) else 0)
  | .bool a, .str s => match parseNumStr s with | some b => (if a then (1 : Int) else 0) = b | none => false
  | .str s, .bool b => match parseNumStr s with | some a => a = (if b then (1 : Int) else 0) | none => false
  | a, b => strictEq a b

/-- Does `+` take the string-concatenation path for this operand (strings
directly; objects, arrays, errors and proxies via their `ToPrimitive`
string form)? -/
def isStringy : Value → Bool
  | .str _ => true
  | .objRef _ => true
  | .arrRef _ => true
  | .errObj _ => true
  | .proxy _ _ => true
  | .consoleObj => true
  | _ => false

/-- Numeric comparison helper for the relational operators: both sides
convert with `ToNumber`; any NaN makes the comparison false. -/
def numCompare (f : Int → Int → Bool) (l r : Value) : Bool :=
  match toNumber l, toNumber r with
  | some a, some b => f a b
  | _, _ => false

/-- Value-level semantics of the binary operators the source's
`evaluateBinaryExpression` implements (plus `**`, reached only through the
`**=` compound assignment).  Division and remainder are integer
approximations of the float operators (division by zero, a float-only
outcome, is NaN here); no claim exercises them. -/
def jsBinop (heap : List HeapCell) (op : String) (l r : Value) : Value :=
  if op = "+" then
    if isStringy l || isStringy r then
      .str (jsToString heap (heap.length + 1) l ++ jsToString heap (heap.length + 1) r)
    else
      match toNumber l, toNumber r with
      | some a, some b => .num (a + b)
      | _, _ => .nan
  else if op = "-" then
    match toNumber l, toNumber r with
    | some a, some b => .num (a - b)
    | _, _ => .nan
  else if op = "*" then
    match toNumber l, toNumber r with
    | some a, some b => .num (a * b)
    | _, _ => .nan
  else if op = "/" then
    match toNumber l, toNumber r with
    | some a, some b => if b = 0 then .nan else .num (Int.tdiv a b)
    | _, _ => .nan
  else if op = "%" then
    match toNumber l, toNumber r with
    | some a, some b => if b = 0 then .nan else .num (Int.tmod a b)
    | _, _ => .nan
  else if op = "**" then
    match toNumber l, toNumber r with
    | some a, some b => if 0 ≤ b then .num (a ^ b.toNat) else .nan
    | _, _ => .nan
  else if op = "==" then .bool (looseEq l r)
  else if op = "!=" then .bool (!(looseEq l r))
  else if op = "===" then .bool (strictEq l r)
  else if op = "!==" then .bool (!(strictEq l r))
  else if op = "<" then
    match l, r with
    | .str a, .str b => .bool (decide (a < b))
    | _, _ => .bool (numCompare (fun a b => decide (a < b)) l r)
  else if op = "<=" then
    match l, r with
    | .str a, .str b => .bool (decide (a ≤ b))
    | _, _ => .bool (numCompare (fun a b => decide (a ≤ b)) l r)
  else if op = ">" then
    match l, r with
    | .str a, .str b => .bool (decide (b < a))
    | _, _ => .bool (numCompare (fun a b => decide (b < a)) l r)
  else if op = ">=" then
    match l, r with
    | .str a, .str b => .bool (decide (b ≤ a))
    | _, _ => .bool (numCompare (fun a b => decide (b ≤ a)) l r)
  else if op = "|" then .num (wrap32 (Int.ofNat (Nat.lor (toUint32 l) (toUint32 r))))
  else if op = "&" then .num (wrap32 (Int.ofNat (Nat.land (toUint32 l) (toUint32 r))))
  else if op = "^" then .num (wrap32 (Int.ofNat (Nat.xor (toUint32 l) (toUint32 r))))
  else if op = "<<" then
    .num (wrap32 (Int.ofNat (Nat.shiftLeft (toUint32 l) ((toUint32 r) % 32))))
  else if op = ">>" then
    .num (Int.fdiv (toInt32 l) (Int.ofNat (2 ^ ((toUint32 r) % 32))))
  else if op = ">>>" then
    .num (Int.ofNat (Nat.shiftRight (toUint32 l) ((toUint32 r) % 32)))
  else (.undef)

/-- Literal node value as a runtime value. -/
def primToValue : Prim → Value
  | .num n => .num n
  | .str s => .str s
  | .bool b => .bool b
  | .nullLit => .nullV

/-- Allocate a plain object on the heap, returning its address. -/
def allocObj (st : St) (fields : List (String × Value)) : St × Nat :=
  ({ st with heap := st.heap ++ [.objCell fields] }, st.heap.length)

/-- Allocate an array on the heap, returning its address. -/
def allocArr (st : St) (elems : List Value) : St × Nat :=
  ({ st with heap := st.heap ++ [.arrCell elems] }, st.heap.length)

/-- The `get` trap of `createDynamicProxy(target, path)`: extend the
dotted path, return an async forwarding function for a method property, a
recursively wrapped proxy for an object property, and the raw property
value otherwise (`undefined` for a missing property). -/
def proxyGet (fields : List (String × HostVal)) (path key : String) : Value :=
  let fullPath := if path = "" then key else path ++ "." ++ key
  match lookupAssoc fields key with
  | some (.method id) => .hostMethod id fullPath
  | some (.obj fs) => .proxy fs fullPath
  | some (.prim p) => primToValue p
  | none => (.undef)

/-- Property read `object[property]` as the evaluator performs it.
Reading from `null`/`undefined` throws a TypeError; proxies answer
through their `get` trap; objects and arrays read from the heap; `Error`
instances expose `message` and `name`; strings expose `length` and
character indexing; any other read yields `undefined`. -/
def getProp (st : St) (v : Value) (key : String) : Except Value Value :=
  match v with
  | .nullV => .error (.errObj ("Cannot read properties of null (reading '" ++ key ++ "')"))
  | .undef => .error (.errObj ("Cannot read properties of undefined (reading '" ++ key ++ "')"))
  | .proxy fields path => .ok (proxyGet fields path key)
  | .objRef a =>
      match st.heap[a]? with
      | some (.objCell fields) =>
          match lookupAssoc fields key with
          | some w => .ok w
          | none => .ok .undef
      | _ => .ok .undef
  | .arrRef a =>
      match st.heap[a]? with
      | some (.arrCell elems) =>
          if key = "length" then .ok (.num elems.length)
          else
            match charsToNat? key.toList with
            | some i =>
                match elems[i]? with
                | some w => .ok w
                | none => .ok .undef
            | none => .ok .undef
      | _ => .ok .undef
  | .errObj m =>
      if key = "message" then .ok (.str m)
      else if key = "name" then .ok (.str "Error")
      else .ok .undef
  | .str s =>
      if key = "length" then .ok (.num s.length)
      else
        match charsToNat? key.toList with
        | some i =>
            match s.toList[i]? with
            | some c => .ok (.str (String.singleton c))
            | none => .ok .undef
        | none => .ok .undef
  | .consoleObj =>
      if key = "log" then .ok (.consoleFn .log)
      else if key = "error" then .ok (.consoleFn .error)
      else if key = "warn" then .ok (.consoleFn .warn)
      else if key = "info" then .ok (.consoleFn .info)
      else .ok .undef
  | _ => .ok (.undef)

/-- Extend an array with `undefined` holes up to (excluding) the given
index, then set that index (JavaScript out-of-bounds array write). -/
def arrSet (elems : List Value) (i : Nat) (v : Value) : List Value :=
  if i < elems.length then elems.set i v
  else (elems ++ List.replicate (i - elems.length) Value.undef) ++ [v]

/-- Property write `object[property] = value` as the evaluator performs
it.  Writing to `null`/`undefined` throws a TypeError; objects and arrays
mutate on the heap; a write through the proxy lands on its empty dummy
target (the `get` trap never consults it), and writes to primitives and
function values are silently dropped, so all of those leave the state
unchanged. -/
def setProp (st : St) (v : Value) (key : String) (w : Value) : Except Value St :=
  match v with
  | .nullV => .error (.errObj ("Cannot set properties of null (setting '" ++ key ++ "')"))
  | .undef => .error (.errObj ("Cannot set properties of undefined (setting '" ++ key ++ "')"))
  | .objRef a =>
      match st.heap[a]? with
      | some (.objCell fields) =>
          .ok { st with heap := st.heap.set a (.objCell (setAssoc fields key w)) }
      | _ => .ok st
  | .arrRef a =>
      match st.heap[a]? with
      | some (.arrCell elems) =>
          match charsToNat? key.toList with
          | some i => .ok { st with heap := st.heap.set a (.arrCell (arrSet elems i w)) }
          | none => .ok st
      | _ => .ok st
  | _ => .ok st

/-- Property delete `delete object[property]`: removes own properties of
objects, punches an `undefined` hole in arrays, and returns `true` in
every other case without touching anything (the proxy's dummy target has
no own properties, and `delete` on primitive property access is a
no-op). -/
def deleteProp (st : St) (v : Value) (key : String) : St :=
  match v with
  | .objRef a =>
      match st.heap[a]? with
      | some (.objCell fields) =>
          { st with heap := st.heap.set a (.objCell (removeAssoc fields key)) }
      | _ => st
  | .arrRef a =>
      match st.heap[a]? with
      | some (.arrCell elems) =>
          match charsToNat? key.toList with
          | some i =>
              if i < elems.length then
                { st with heap := st.heap.set a (.arrCell (elems.set i .undef)) }
              else st
          | none => st
      | _ => st
  | _ => st

/-- Serialisation of a call's argument list for the proxy's diagnostic
line: `args.map(a => JSON.stringify(a)).join(', ')` (an undefined
`JSON.stringify` result becomes the empty string under `join`). -/
def serializeArgs (st : St) (args : List Value) : String :=
  String.intercalate ", "
    (args.map (fun a => (jsonStringify st.heap (st.heap.length + 1) a).getD ""))

/-- One console-method argument formatted as the seeded `console` object
does it: `typeof arg === 'object' ? JSON.stringify(arg) : String(arg)`. -/
def consoleArgString (st : St) (a : Value) : String :=
  if jsTypeof a = "object" then
    (jsonStringify st.heap (st.heap.length + 1) a).getD "undefined"
  else jsToString st.heap (st.heap.length + 1) a

/-- Message built by the seeded `console.*` methods: formatted arguments
joined with single spaces. -/
def consoleMsg (st : St) (args : List Value) : String :=
  String.intercalate " " (args.map (consoleArgString st))

/-- Message prefix of each seeded console method. -/
def consolePrefix : ConsoleKind → String
  | .log => ""
  | .error => "ERROR: "
  | .warn => "WARNING: "
  | .info => "INFO: "

/-- Append one effect entry to the trace. -/
def pushTrace (st : St) (e : LogEntry) : St :=
  { st with trace := st.trace ++ [e] }

/-- Append several effect entries to the trace. -/
def pushTraces (st : St) (es : List LogEntry) : St :=
  { st with trace := st.trace ++ es }

/-- Base binary operator of each compound assignment operator the
source's switch supports; `none` trips the unsupported-operator error. -/
def compoundBase (op : String) : Option String :=
  if op = "+=" then some "+"
  else if op = "-=" then some "-"
  else if op = "*=" then some "*"
  else if op = "/=" then some "/"
  else if op = "%=" then some "%"
  else if op = "**=" then some "**"
  else if op = "<<=" then some "<<"
  else if op = ">>=" then some ">>"
  else if op = ">>>=" then some ">>>"
  else if op = "|=" then some "|"
  else if op = "^=" then some "^"
  else if op = "&=" then some "&"
  else none

/-- Value stored by an assignment with the given operator: the right
operand for plain `=`, the compound combination otherwise, and the
source's `Unsupported assignment operator` error for anything else. -/
def applyAssignOp (heap : List HeapCell) (op : String) (old right : Value) :
    Except Value Value :=
  if op = "=" then .ok right
  else
    match compoundBase op with
    | some b => .ok (jsBinop heap b old right)
    | none => .error (.errObj ("Unsupported assignment operator: " ++ op))

/-- The identifier-assignment walk of `evaluateAssignmentExpression`:
follow the parent chain from the current environment to the first frame
whose own `variables` record defines the name, apply the operator there
and store the result, returning the stored value.  `none` means the walk
fell off the chain (no frame defines the name); an unsupported operator
throws after the frame is found, without mutating it. -/
def walkAssign (st : St) : Nat → Option Nat → String → String → Value →
    Option (St × Out Value)
  | 0, _, _, _, _ => none
  | _, none, _, _, _ => none
  | fuel+1, some r, name, op, right =>
      match st.envs[r]? with
      | none => none
      | some fr =>
          match lookupAssoc fr.vars name with
          | some old =>
              match applyAssignOp st.heap op old right with
              | .ok nv => some (define st r name nv, .ok nv)
              | .error e => some (st, .err e)
          | none => walkAssign st fuel fr.parent name op right

/-- The identifier-update walk of `evaluateUpdateExpression`: follow the
parent chain to the first frame defining the name, apply `+= 1` or `-= 1`
there, and return the new value for a prefix operator or the old value
for a postfix one.  `none` means no frame defines the name. -/
def walkUpdate (st : St) : Nat → Option Nat → String → String → Bool →
    Option (St × Out Value)
  | 0, _, _, _, _ => none
  | _, none, _, _, _ => none
  | fuel+1, some r, name, op, pre =>
      match st.envs[r]? with
      | none => none
      | some fr =>
          match lookupAssoc fr.vars name with
          | some old =>
              if op = "++" then
                let nv := jsBinop st.heap "+" old (.num 1)
                some (define st r name nv, .ok (if pre then nv else old))
              else if op = "--" then
                let nv := jsBinop st.heap "-" old (.num 1)
                some (define st r name nv, .ok (if pre then nv else old))
              else
                some (st, .err (.errObj ("Unsupported update operator: " ++ op)))
          | none => walkUpdate st fuel fr.parent name op pre

/-- Lift an `Except` into an evaluation outcome. -/
def exceptToOut {α : Type} : Except Value α → Out α
  | .ok v => .ok v
  | .error e => .err e

/-- Type of the one-step-smaller evaluator the list/loop helpers receive:
evaluate a node in an environment from a state. -/
abbrev Ev := Ast → Nat → St → Res Value

/-- Sequencing of `evaluateProgram`: evaluate each statement, keeping the
last completed statement's value (initially `undefined`); errors (and
divergence) propagate, and there is no check for the `ReturnValue`
sentinel. -/
def seqProgram (ev : Ev) : List Ast → Value → Nat → St → Res Value
  | [], prev, _, st => (st, .ok prev)
  | s :: rest, _, env, st =>
      match ev s env st with
      | (st1, .ok v) => seqProgram ev rest v env st1
      | (st1, .err e) => (st1, .err e)
      | (st1, .timeout) => (st1, .timeout)

/-- Sequencing of `evaluateBlockStatement`: like `seqProgram`, but a
statement whose value is the `ReturnValue` sentinel stops the block at
once and becomes its value. -/
def seqBlock (ev : Ev) : List Ast → Value → Nat → St → Res Value
  | [], prev, _, st => (st, .ok prev)
  | s :: rest, _, env, st =>
      match ev s env st with
      | (st1, .ok (.returnVal v)) => (st1, .ok (.returnVal v))
      | (st1, .ok v) => seqBlock ev rest v env st1
      | (st1, .err e) => (st1, .err e)
      | (st1, .timeout) => (st1, .timeout)

/-- Left-to-right evaluation of a call's argument expressions. -/
def evalArgsList (ev : Ev) : List Ast → List Value → Nat → St → St × Out (List Value)
  | [], acc, _, st => (st, .ok acc)
  | a :: rest, acc, env, st =>
      match ev a env st with
      | (st1, .ok v) => evalArgsList ev rest (acc ++ [v]) env st1
      | (st1, .err e) => (st1, .err e)
      | (st1, .timeout) => (st1, .timeout)

/-- Left-to-right evaluation of an ArrayExpression's elements; a hole
pushes `undefined`. -/
def evalElems (ev : Ev) : List (Option Ast) → List Value → Nat → St → St × Out (List Value)
  | [], acc, _, st => (st, .ok acc)
  | none :: rest, acc, env, st => evalElems ev rest (acc ++ [.undef]) env st
  | some a :: rest, acc, env, st =>
      match ev a env st with
      | (st1, .ok v) => evalElems ev rest (acc ++ [v]) env st1
      | (st1, .err e) => (st1, .err e)
      | (st1, .timeout) => (st1, .timeout)

/-- String form of a literal property key (JavaScript property keys are
strings). -/
def primKeyString : Prim → String
  | .num n => toString n
  | .str s => s
  | .bool b => if b then "true" else "false"
  | .nullLit => "null"

/-- Evaluation of an ObjectExpression's properties in source order,
building the field list (a repeated key overwrites). -/
def evalObjProps (ev : Ev) : List (ObjProp Ast) → List (String × Value) → Nat → St →
    St × Out (List (String × Value))
  | [], acc, _, st => (st, .ok acc)
  | .idKey k vE :: rest, acc, env, st =>
      match ev vE env st with
      | (st1, .ok v) => evalObjProps ev rest (setAssoc acc k v) env st1
      | (st1, .err e) => (st1, .err e)
      | (st1, .timeout) => (st1, .timeout)
  | .litKey p vE :: rest, acc, env, st =>
      match ev vE env st with
      | (st1, .ok v) => evalObjProps ev rest (setAssoc acc (primKeyString p) v) env st1
      | (st1, .err e) => (st1, .err e)
      | (st1, .timeout) => (st1, .timeout)
  | .computedKey kE vE :: rest, acc, env, st =>
      match ev kE env st with
      | (st1, .ok kv) =>
          let key := jsToString st1.heap (st1.heap.length + 1) kv
          match ev vE env st1 with
          | (st2, .ok v) => evalObjProps ev rest (setAssoc acc key v) env st2
          | (st2, .err e) => (st2, .err e)
          | (st2, .timeout) => (st2, .timeout)
      | (st1, .err e) => (st1, .err e)
      | (st1, .timeout) => (st1, .timeout)
  | .otherKey _ _ :: _, _, _, st =>
      (st, .err (.errObj "Unsupported property key type"))

/-- The TemplateLiteral loop: append each literal chunk, then the string
conversion of the matching interpolated expression's value, in source
order. -/
def evalTemplateParts (ev : Ev) : List String → List Ast → String → Nat → St → Res Value
  | [], _, acc, _, st => (st, .ok (.str acc))
  | q :: qs, [], acc, env, st => evalTemplateParts ev qs [] (acc ++ q) env st
  | q :: qs, e :: es, acc, env, st =>
      match ev e env st with
      | (st1, .ok v) =>
          evalTemplateParts ev qs es
            (acc ++ q ++ jsToString st1.heap (st1.heap.length + 1) v) env st1
      | (st1, .err er) => (st1, .err er)
      | (st1, .timeout) => (st1, .timeout)

/-- The ObjectPattern destructuring loop of `evaluateVariableDeclaration`:
each property with an identifier key and an identifier value binds that
name to `rightValue[key]`; a non-identifier key or a nested value pattern
raises the source's explicit unsupported errors. -/
def destructureObj (env : Nat) (rv : Value) : St → List (PatKey × PatTarget) → St × Out Unit
  | st, [] => (st, .ok ())
  | st, (key, target) :: rest =>
      match key with
      | .id k =>
          match target with
          | .id varName =>
              match getProp st rv k with
              | .ok w => destructureObj env rv (define st env varName w) rest
              | .error e => (st, .err e)
          | .other kind =>
              (st, .err (.errObj ("Unsupported destructuring pattern: " ++ kind)))
      | .other kind =>
          (st, .err (.errObj ("Unsupported property key type: " ++ kind)))

/-- The ArrayPattern destructuring loop: element `i` with an identifier
pattern binds to `rightValue[i]`, holes are skipped, and any other
element kind raises the source's explicit unsupported error. -/
def destructureArr (env : Nat) (rv : Value) : St → List (Option ArrElemPat) → Nat → St × Out Unit
  | st, [], _ => (st, .ok ())
  | st, none :: rest, i => destructureArr env rv st rest (i + 1)
  | st, some (.id name) :: rest, i =>
      match getProp st rv (toString i) with
      | .ok w => destructureArr env rv (define st env name w) rest (i + 1)
      | .error e => (st, .err e)
  | st, some (.other kind) :: _, _ =>
      (st, .err (.errObj ("Unsupported array destructuring element: " ++ kind)))

/-- The declarator loop of `evaluateVariableDeclaration`. -/
def evalDecls (ev : Ev) : List (Pattern × Option Ast) → Nat → St → St × Out Unit
  | [], _, st => (st, .ok ())
  | (pat, init) :: rest, env, st =>
      match pat with
      | .id name =>
          match init with
          | none => evalDecls ev rest env (define st env name .undef)
          | some e =>
              match ev e env st with
              | (st1, .ok v) => evalDecls ev rest env (define st1 env name v)
              | (st1, .err er) => (st1, .err er)
              | (st1, .timeout) => (st1, .timeout)
      | .objPat props =>
          match init with
          | none => (st, .err (.errObj "Cannot read properties of null (reading 'type')"))
          | some e =>
              match ev e env st with
              | (st1, .ok rv) =>
                  match destructureObj env rv st1 props with
                  | (st2, .ok _) => evalDecls ev rest env st2
                  | (st2, .err er) => (st2, .err er)
                  | (st2, .timeout) => (st2, .timeout)
              | (st1, .err er) => (st1, .err er)
              | (st1, .timeout) => (st1, .timeout)
      | .arrPat elems =>
          match init with
          | none => (st, .err (.errObj "Cannot read properties of null (reading 'type')"))
          | some e =>
              match ev e env st with
              | (st1, .ok rv) =>
                  match destructureArr env rv st1 elems 0 with
                  | (st2, .ok _) => evalDecls ev rest env st2
                  | (st2, .err er) => (st2, .err er)
                  | (st2, .timeout) => (st2, .timeout)
              | (st1, .err er) => (st1, .err er)
              | (st1, .timeout) => (st1, .timeout)
      | .other kind =>
          (st, .err (.errObj ("Unsupported variable declaration pattern: " ++ kind)))

/-- The parameter-binding loop of `createFunction`: bind each identifier
parameter positionally to the matching argument (`undefined` when the
argument list is shorter); a non-identifier parameter raises the
source's error. -/
def bindParams (fr : Nat) : St → List Param → List Value → St × Out Unit
  | st, [], _ => (st, .ok ())
  | st, .id name :: ps, args =>
      bindParams fr (define st fr name (args.headD .undef)) ps (args.drop 1)
  | st, .other _ :: _, _ =>
      (st, .err (.errObj "Only simple parameter names are supported"))

/-- Calling a closure (`createFunction`'s returned async function): create
a new child environment of the closure's captured defining environment,
bind parameters to arguments, evaluate the body, and unwrap a
`ReturnValue` sentinel (whether returned or — the defensive dead branch —
thrown) into its carried value; otherwise return the body's own value. -/
def applyClosure (ev : Ev) (st : St) (params : List Param) (body : Ast) (cenv : Nat)
    (args : List Value) : Res Value :=
  let (st1, fr) := createEnvironment st [] (some cenv)
  match bindParams fr st1 params args with
  | (st2, .ok _) =>
      match ev body fr st2 with
      | (st3, .ok (.returnVal v)) => (st3, .ok v)
      | (st3, .ok v) => (st3, .ok v)
      | (st3, .err (.returnVal v)) => (st3, .ok v)
      | (st3, .err e) => (st3, .err e)
      | (st3, .timeout) => (st3, .timeout)
  | (st2, .err e) => (st2, .err e)
  | (st2, .timeout) => (st2, .timeout)

/-- Invoking an evaluated callee on evaluated arguments: closures run
their body; a proxy-wrapped host method logs exactly one `Calling
path(args)` console line and then forwards the unchanged arguments to the
real method, returning its unchanged result; the seeded `log` binding
invokes the context log callback with its first argument; the seeded
console methods format their arguments and invoke the context log
callback; anything else is the source's non-function call error. -/
def callFunction (ctx : Ctx) (ev : Ev) (st : St) (f : Value) (args : List Value) :
    Res Value :=
  match f with
  | .closure ps body cenv => applyClosure ev st ps body cenv args
  | .hostMethod id path =>
      let line := "Calling " ++ path ++ "(" ++ serializeArgs st args ++ ")"
      let st1 := pushTrace st (.console line)
      match ctx.hostCall id args with
      | (es, .ok v) => (pushTraces st1 es, .ok v)
      | (es, .error e) => (pushTraces st1 es, .err e)
  | .logFn => (pushTrace st (.ctx (args.headD .undef)), .ok .undef)
  | .consoleFn k =>
      (pushTrace st (.ctx (.str (consolePrefix k ++ consoleMsg st args))), .ok .undef)
  | _ => (st, .err (.errObj "Attempted to call a non-function"))

/-- Member assignment `object[property] op= right` (the one place state is
mutated outside the environment): plain `=` writes and returns a fresh
read; a compound operator reads, combines, writes, and returns a fresh
read; an unknown operator raises the source's error. -/
def memberAssign (st : St) (ov : Value) (key : String) (op : String) (right : Value) :
    Res Value :=
  if op = "=" then
    match setProp st ov key right with
    | .ok st1 => (st1, exceptToOut (getProp st1 ov key))
    | .error e => (st, .err e)
  else
    match compoundBase op with
    | some b =>
        match getProp st ov key with
        | .ok old =>
            let nv := jsBinop st.heap b old right
            match setProp st ov key nv with
            | .ok st1 => (st1, exceptToOut (getProp st1 ov key))
            | .error e => (st, .err e)
        | .error e => (st, .err e)
    | none => (st, .err (.errObj ("Unsupported assignment operator: " ++ op)))

/-- Member update `object[property]++` and friends: read the old value,
add or subtract one, write, and return the freshly read new value for a
prefix operator or the old value for a postfix one. -/
def memberUpdate (st : St) (ov : Value) (key : String) (op : String) (pre : Bool) :
    Res Value :=
  match getProp st ov key with
  | .ok old =>
      if op = "++" then
        match setProp st ov key (jsBinop st.heap "+" old (.num 1)) with
        | .ok st1 =>
            if pre then (st1, exceptToOut (getProp st1 ov key)) else (st1, .ok old)
        | .error e => (st, .err e)
      else if op = "--" then
        match setProp st ov key (jsBinop st.heap "-" old (.num 1)) with
        | .ok st1 =>
            if pre then (st1, exceptToOut (getProp st1 ov key)) else (st1, .ok old)
        | .error e => (st, .err e)
      else (st, .err (.errObj ("Unsupported update operator: " ++ op)))
  | .error e => (st, .err e)

/-- Binary operators the switch of `evaluateBinaryExpression` handles
(note `**` is absent: it is reachable only through `**=`). -/
def isBinopSupported (op : String) : Bool :=
  ["+", "-", "*", "/", "%", "==", "!=", "===", "!==", "<", "<=", ">", ">=",
   "|", "&", "^", "<<", ">>", ">>>"].contains op

/-- The loop of `evaluateForStatement` after the loop environment is
created and the initialiser has run: test, body (propagating a
`ReturnValue` sentinel out immediately), update, repeat; each iteration
consumes one unit of fuel. -/
def forLoopAux (ev : Ev) : Nat → Option Ast → Option Ast → Ast → Nat → St → Res Value
  | 0, _, _, _, _, st => (st, .timeout)
  | fuel+1, test, upd, body, env, st =>
      let runBody : St → Res Value := fun stB =>
        match ev body env stB with
        | (st2, .ok (.returnVal v)) => (st2, .ok (.returnVal v))
        | (st2, .ok _) =>
            match upd with
            | none => forLoopAux ev fuel test upd body env st2
            | some u =>
                match ev u env st2 with
                | (st3, .ok _) => forLoopAux ev fuel test upd body env st3
                | (st3, .err e) => (st3, .err e)
                | (st3, .timeout) => (st3, .timeout)
        | (st2, .err e) => (st2, .err e)
        | (st2, .timeout) => (st2, .timeout)
      match test with
      | none => runBody st
      | some t =>
          match ev t env st with
          | (st1, .ok c) => if truthy c then runBody st1 else (st1, .ok .undef)
          | (st1, .err e) => (st1, .err e)
          | (st1, .timeout) => (st1, .timeout)

/-- The evaluator `evaluateNode(node, env)` of the `Interpreter` class:
one entry point dispatching on the node kind, recursing with one unit of
fuel consumed per step (each `while` iteration re-enters the node with
less fuel, matching the source's unbounded loop). -/
def evalNode (ctx : Ctx) : Nat → Ast → Nat → St → Res Value
  | 0, _, _, st => (st, .timeout)
  | fuel+1, node, env, st =>
      let ev : Ev := fun a e s => evalNode ctx fuel a e s
      match node with
      | .program body => seqProgram ev body .undef env st
      | .exprStmt e => ev e env st
      | .call callee args =>
          match ev callee env st with
          | (st1, .ok f) =>
              match evalArgsList ev args [] env st1 with
              | (st2, .ok vs) => callFunction ctx ev st2 f vs
              | (st2, .err e) => (st2, .err e)
              | (st2, .timeout) => (st2, .timeout)
          | (st1, .err e) => (st1, .err e)
          | (st1, .timeout) => (st1, .timeout)
      | .memberDot o name =>
          match ev o env st with
          | (st1, .ok ov) => (st1, exceptToOut (getProp st1 ov name))
          | (st1, .err e) => (st1, .err e)
          | (st1, .timeout) => (st1, .timeout)
      | .memberComputed o pe =>
          match ev o env st with
          | (st1, .ok ov) =>
              match ev pe env st1 with
              | (st2, .ok pv) =>
                  (st2, exceptToOut (getProp st2 ov (jsToString st2.heap (st2.heap.length + 1) pv)))
              | (st2, .err e) => (st2, .err e)
              | (st2, .timeout) => (st2, .timeout)
          | (st1, .err e) => (st1, .err e)
          | (st1, .timeout) => (st1, .timeout)
      | .ident name =>
          match lookupEnv st.envs st.envs.length env name with
          | some v => (st, .ok v)
          | none => (st, .err (.errObj ("Variable '" ++ name ++ "' is not defined")))
      | .lit p => (st, .ok (primToValue p))
      | .awaitE a => ev a env st
      | .varDecl decls =>
          match evalDecls ev decls env st with
          | (st1, .ok _) => (st1, .ok .undef)
          | (st1, .err e) => (st1, .err e)
          | (st1, .timeout) => (st1, .timeout)
      | .block body =>
          let (st1, fr) := createEnvironment st [] (some env)
          seqBlock ev body .undef fr st1
      | .ifStmt t c a =>
          match ev t env st with
          | (st1, .ok tv) =>
              if truthy tv then ev c env st1
              else
                match a with
                | some alt => ev alt env st1
                | none => (st1, .ok .undef)
          | (st1, .err e) => (st1, .err e)
          | (st1, .timeout) => (st1, .timeout)
      | .binop op l r =>
          match ev l env st with
          | (st1, .ok lv) =>
              match ev r env st1 with
              | (st2, .ok rv) =>
                  if isBinopSupported op then (st2, .ok (jsBinop st2.heap op lv rv))
                  else (st2, .err (.errObj ("Unsupported binary operator: " ++ op)))
              | (st2, .err e) => (st2, .err e)
              | (st2, .timeout) => (st2, .timeout)
          | (st1, .err e) => (st1, .err e)
          | (st1, .timeout) => (st1, .timeout)
      | .logical op l r =>
          match ev l env st with
          | (st1, .ok lv) =>
              if op = "&&" then
                if truthy lv then ev r env st1 else (st1, .ok lv)
              else if op = "||" then
                if truthy lv then (st1, .ok lv) else ev r env st1
              else if op = "??" then
                match lv with
                | .nullV => ev r env st1
                | .undef => ev r env st1
                | w => (st1, .ok w)
              else (st1, .err (.errObj ("Unsupported logical operator: " ++ op)))
          | (st1, .err e) => (st1, .err e)
          | (st1, .timeout) => (st1, .timeout)
      | .unary op a =>
          match ev a env st with
          | (st1, .ok av) =>
              if op = "!" then (st1, .ok (.bool (!truthy av)))
              else if op = "-" then
                (st1, .ok (match toNumber av with | some n => .num (-n) | none => .nan))
              else if op = "+" then
                (st1, .ok (match toNumber av with | some n => .num n | none => .nan))
              else if op = "~" then (st1, .ok (.num (-(toInt32 av) - 1)))
              else if op = "typeof" then (st1, .ok (.str (jsTypeof av)))
              else if op = "void" then (st1, .ok .undef)
              else if op = "delete" then
                match a with
                | .memberDot o pname =>
                    match ev o env st1 with
                    | (st2, .ok ov) => (deleteProp st2 ov pname, .ok (.bool true))
                    | (st2, .err e) => (st2, .err e)
                    | (st2, .timeout) => (st2, .timeout)
                | .memberComputed o pe =>
                    match ev o env st1 with
                    | (st2, .ok ov) =>
                        match ev pe env st2 with
                        | (st3, .ok pv) =>
                            (deleteProp st3 ov (jsToString st3.heap (st3.heap.length + 1) pv),
                             .ok (.bool true))
                        | (st3, .err e) => (st3, .err e)
                        | (st3, .timeout) => (st3, .timeout)
                    | (st2, .err e) => (st2, .err e)
                    | (st2, .timeout) => (st2, .timeout)
                | _ => (st1, .ok (.bool true))
              else (st1, .err (.errObj ("Unsupported unary operator: " ++ op)))
          | (st1, .err e) => (st1, .err e)
          | (st1, .timeout) => (st1, .timeout)
      | .forStmt ini test upd body =>
          let (st1, fr) := createEnvironment st [] (some env)
          match ini with
          | none => forLoopAux ev fuel test upd body fr st1
          | some i =>
              match ev i fr st1 with
              | (st2, .ok _) => forLoopAux ev fuel test upd body fr st2
              | (st2, .err e) => (st2, .err e)
              | (st2, .timeout) => (st2, .timeout)
      | .whileStmt test body =>
          match ev test env st with
          | (st1, .ok c) =>
              if truthy c then
                match ev body env st1 with
                | (st2, .ok (.returnVal v)) => (st2, .ok (.returnVal v))
                | (st2, .ok _) => evalNode ctx fuel (.whileStmt test body) env st2
                | (st2, .err e) => (st2, .err e)
                | (st2, .timeout) => (st2, .timeout)
              else (st1, .ok .undef)
          | (st1, .err e) => (st1, .err e)
          | (st1, .timeout) => (st1, .timeout)
      | .objExpr props =>
          match evalObjProps ev props [] env st with
          | (st1, .ok fields) =>
              let (st2, a) := allocObj st1 fields
              (st2, .ok (.objRef a))
          | (st1, .err e) => (st1, .err e)
          | (st1, .timeout) => (st1, .timeout)
      | .arrExpr elems =>
          match evalElems ev elems [] env st with
          | (st1, .ok vs) =>
              let (st2, a) := allocArr st1 vs
              (st2, .ok (.arrRef a))
          | (st1, .err e) => (st1, .err e)
          | (st1, .timeout) => (st1, .timeout)
      | .funcDecl name params body =>
          (define st env name (.closure params body env), .ok .undef)
      | .arrowFn params body => (st, .ok (.closure params body env))
      | .returnStmt arg =>
          match arg with
          | none => (st, .ok (.returnVal .undef))
          | some e =>
              match ev e env st with
              | (st1, .ok v) => (st1, .ok (.returnVal v))
              | (st1, .err er) => (st1, .err er)
              | (st1, .timeout) => (st1, .timeout)
      | .assign op lhs rhs =>
          match ev rhs env st with
          | (st1, .ok right) =>
              match lhs with
              | .ident name =>
                  match walkAssign st1 st1.envs.length (some env) name op right with
                  | some res => res
                  | none =>
                      if op = "=" then (define st1 env name right, .ok right)
                      else
                        (st1, .err (.errObj
                          ("Cannot use operator " ++ op ++ " on undefined variable " ++ name)))
              | .memberDot o pname =>
                  match ev o env st1 with
                  | (st2, .ok ov) => memberAssign st2 ov pname op right
                  | (st2, .err e) => (st2, .err e)
                  | (st2, .timeout) => (st2, .timeout)
              | .memberComputed o pe =>
                  match ev o env st1 with
                  | (st2, .ok ov) =>
                      match ev pe env st2 with
                      | (st3, .ok pv) =>
                          memberAssign st3 ov (jsToString st3.heap (st3.heap.length + 1) pv)
                            op right
                      | (st3, .err e) => (st3, .err e)
                      | (st3, .timeout) => (st3, .timeout)
                  | (st2, .err e) => (st2, .err e)
                  | (st2, .timeout) => (st2, .timeout)
              | _ => (st1, .err (.errObj "Unsupported assignment target"))
          | (st1, .err e) => (st1, .err e)
          | (st1, .timeout) => (st1, .timeout)
      | .update op pre arg =>
          match arg with
          | .ident name =>
              match walkUpdate st st.envs.length (some env) name op pre with
              | some res => res
              | none =>
                  (st, .err (.errObj ("Cannot update undefined variable " ++ name)))
          | .memberDot o pname =>
              match ev o env st with
              | (st1, .ok ov) => memberUpdate st1 ov pname op pre
              | (st1, .err e) => (st1, .err e)
              | (st1, .timeout) => (st1, .timeout)
          | .memberComputed o pe =>
              match ev o env st with
              | (st1, .ok ov) =>
                  match ev pe env st1 with
                  | (st2, .ok pv) =>
                      memberUpdate st2 ov (jsToString st2.heap (st2.heap.length + 1) pv) op pre
                  | (st2, .err e) => (st2, .err e)
                  | (st2, .timeout) => (st2, .timeout)
              | (st1, .err e) => (st1, .err e)
              | (st1, .timeout) => (st1, .timeout)
          | _ => (st, .err (.errObj "Unsupported update target"))
      | .templateLit qs es => evalTemplateParts ev qs es "" env st
      | .cond t c a =>
          match ev t env st with
          | (st1, .ok tv) => if truthy tv then ev c env st1 else ev a env st1
          | (st1, .err e) => (st1, .err e)
          | (st1, .timeout) => (st1, .timeout)
      | .tryStmt blk handler finalizer =>
          let tc : Res Value :=
            match ev blk env st with
            | (st1, .ok v) => (st1, .ok v)
            | (st1, .timeout) => (st1, .timeout)
            | (st1, .err e) =>
                match e with
                | .returnVal v => (st1, .err (.returnVal v))
                | _ =>
                    match handler with
                    | none => (st1, .err e)
                    | some (param, hbody) =>
                        let (st2, fr) := createEnvironment st1 [] (some env)
                        let st3 :=
                          match param with
                          | some (.id pname) => define st2 fr pname e
                          | _ => st2
                        ev hbody fr st3
          match tc with
          | (stA, .timeout) => (stA, .timeout)
          | (stA, r) =>
              match finalizer with
              | none => (stA, r)
              | some f =>
                  match ev f env stA with
                  | (stB, .ok _) => (stB, r)
                  | (stB, .err e2) => (stB, .err e2)
                  | (stB, .timeout) => (stB, .timeout)
      | .other kind => (st, .err (.errObj ("Unsupported node type: " ++ kind)))

/-- Variable record of the global environment the `Interpreter`
constructor seeds: the proxied host object under `page`, the context log
callback under `log`, and the four-method `console` object.  The
remaining seeded bindings (setTimeout, the primitive constructors, Math,
JSON, Promise, the parse/URI helpers) are references to host-platform
objects outside the model; no claim under study names them. -/
def globalFrameVars (ctx : Ctx) : List (String × Value) :=
  [("page", .proxy ctx.pageFields "page"), ("log", .logFn), ("console", .consoleObj)]

/-- Construction of a new `Interpreter(context)`: allocate the seeded
global environment, returning its frame index. -/
def newInterpreter (ctx : Ctx) (st : St) : St × Nat :=
  createEnvironment st (globalFrameVars ctx) none

/-- Source `parseScript(code)`: delegate to the external parser (acorn,
taken as a parameter); a parse failure logs `Error parsing script:` to
the console and is rethrown wrapped as `Failed to parse script: ...`. -/
def parseScriptM (parse : String → Except String Ast) (code : String) (st : St) :
    St × Except Value Ast :=
  match parse code with
  | .ok ast => (st, .ok ast)
  | .error m =>
      (pushTrace st (.console ("Error parsing script: " ++ m)),
       .error (.errObj ("Failed to parse script: " ++ m)))

/-- Keywords whose presence at the start of the trimmed source text makes
`executeScript` treat it as a complete program (the regex
`^(const|let|var|function|class|...)` is a plain prefix test). -/
def completePrefixes : List String :=
  ["const", "let", "var", "function", "class", "import", "export",
   "if", "for", "while", "switch", "return", "try", "throw"]

/-- Source classification `isFunctionBody`: the text is a bare fragment
exactly when its trimmed form starts with none of the statement or
declaration keywords. -/
def isFunctionBody (code : String) : Bool :=
  !(completePrefixes.any (fun k => strStartsWith (jsTrim code) k))

/-- After the closing brace of `/const\s*\x7b.*\x7d\s*=\s*ctx/`: optional
whitespace, `=`, optional whitespace, then `ctx`. -/
def afterCloseBrace (cs : List Char) : Bool :=
  match cs.dropWhile (fun c => c.isWhitespace) with
  | [] => false
  | c :: rest =>
      c = '=' && "ctx".toList.isPrefixOf (rest.dropWhile (fun c2 => c2.isWhitespace))

/-- Scan for a closing brace whose tail matches `afterCloseBrace`
(the regex's greedy `.*\x7d` with backtracking: any split works). -/
def closeThenEq : List Char → Bool
  | [] => false
  | c :: rest => (c = Char.ofNat 125 && afterCloseBrace rest) || closeThenEq rest

/-- Does the regex `/const\s*\x7b.*\x7d\s*=\s*ctx/` match starting at
this position? -/
def matchCtxAt (cs : List Char) : Bool :=
  if "const".toList.isPrefixOf cs then
    match (cs.drop 5).dropWhile (fun c => c.isWhitespace) with
    | [] => false
    | c :: rest => c = Char.ofNat 123 && closeThenEq rest
  else false

/-- Unanchored search of the `const { ... } = ctx` destructuring
pattern. -/
def hasCtxDestructure : List Char → Bool
  | [] => false
  | c :: rest => matchCtxAt (c :: rest) || hasCtxDestructure rest

/-- The fragment loop's test for a line that merely destructures the
execution context (such lines are skipped: `page` and `log` are already
seeded). -/
def matchesCtxDestructure (s : String) : Bool :=
  hasCtxDestructure s.toList

/-- Message by which failures surface: `error instanceof Error ?
error.message : String(error)`. -/
def errMessageOf (heap : List HeapCell) (v : Value) : String :=
  match v with
  | .errObj m => m
  | w => jsToString heap (heap.length + 1) w

/-- The fragment loop's per-line catch: log the failure to the console
and through the context log callback, then report success so the loop
continues with the next line. -/
def lineFail (st : St) (t : String) (e : Value) : St × Out Unit :=
  (pushTraces st
    [.console ("Error executing line \"" ++ t ++ "\": " ++
               jsToString st.heap (st.heap.length + 1) e),
     .ctx (.str ("Error in line \"" ++ t ++ "\": " ++ errMessageOf st.heap e))],
   .ok ())

/-- Parse and execute one (possibly rewritten) fragment line on the
shared interpreter; any parse or evaluation failure is absorbed by
`lineFail`.  `codeToParse` is the text handed to the parser, `t` the
trimmed original line used in failure messages. -/
def execFragmentLine (parse : String → Except String Ast) (ctx : Ctx) (fuel : Nat)
    (g : Nat) (codeToParse t : String) (st : St) : St × Out Unit :=
  match parseScriptM parse codeToParse st with
  | (st1, .error e) => lineFail st1 t e
  | (st1, .ok ast) =>
      match evalNode ctx fuel ast g st1 with
      | (st2, .ok _) => (st2, .ok ())
      | (st2, .err e) => lineFail st2 t e
      | (st2, .timeout) => (st2, .timeout)

/-- One iteration of the fragment loop: trim the line; skip blank lines,
comment lines and context-destructuring lines; wrap a line beginning with
`await ` in an immediately-invoked async function so it parses as a
complete statement; then parse and execute it with per-line failure
isolation. -/
def processLine (parse : String → Except String Ast) (ctx : Ctx) (fuel : Nat)
    (g : Nat) (line : String) (st : St) : St × Out Unit :=
  let t := jsTrim line
  if t = "" then (st, .ok ())
  else if strStartsWith t "//" then (st, .ok ())
  else if matchesCtxDestructure t then (st, .ok ())
  else if strStartsWith t "await " then
    execFragmentLine parse ctx fuel g
      ("(async () => \x7b return " ++ t.drop 6 ++ "; \x7d)()") t st
  else execFragmentLine parse ctx fuel g t t st

/-- The fragment loop over all lines: every line runs on the same
interpreter state with the same global environment; only divergence
(timeout) stops the loop early, a per-line failure having already been
absorbed by `processLine`. -/
def runLines (parse : String → Except String Ast) (ctx : Ctx) (fuel : Nat)
    (g : Nat) : List String → St → St × Out Unit
  | [], st => (st, .ok ())
  | l :: rest, st =>
      match processLine parse ctx fuel g l st with
      | (st1, .timeout) => (st1, .timeout)
      | (st1, _) => runLines parse ctx fuel g rest st1

/-- The top-level catch of `executeScript`: log the failure to the
console and through the context log callback, then rethrow it. -/
def scriptCatch (st : St) (e : Value) : St × Out Unit :=
  (pushTraces st
    [.console ("Error executing script: " ++ jsToString st.heap (st.heap.length + 1) e),
     .ctx (.str ("Error executing script: " ++ errMessageOf st.heap e))],
   .err e)

/-- Source `executeScript(scriptCode, context)`: log the incoming code,
classify it, and either run the fragment path (one interpreter, per-line
parse/execute with per-line failure isolation) or the whole-program path
(parse once, one interpreter, one execution, failures logged and
rethrown). -/
def executeScript (parse : String → Except String Ast) (ctx : Ctx) (fuel : Nat)
    (code : String) : St × Out Unit :=
  let st0 : St := ⟨[], [], [.console ("Executing script code: " ++ code)]⟩
  if isFunctionBody code then
    let st1 := pushTrace st0 (.console "Detected function body fragment, executing directly")
    let (st2, g) := newInterpreter ctx st1
    runLines parse ctx fuel g (splitLines code) st2
  else
    match parseScriptM parse code st0 with
    | (st1, .error e) => scriptCatch st1 e
    | (st1, .ok ast) =>
        let (st2, g) := newInterpreter ctx st1
        match evalNode ctx fuel ast g st2 with
        | (st3, .ok _) => (st3, .ok ())
        | (st3, .err e) => scriptCatch st3 e
        | (st3, .timeout) => (st3, .timeout)

/-- Is an AST node a MemberExpression (the source's
`node.argument.type === 'MemberExpression'` test)? -/
def isMemberNode : Ast → Bool
  | .memberDot _ _ => true
  | .memberComputed _ _ => true
  | _ => false

/-- Is a value the `ReturnValue` sentinel (`result instanceof
ReturnValue`)? -/
def Value.isReturnVal : Value → Bool
  | .returnVal _ => true
  | _ => false

/-- Execution context with a host object that has no fields and whose
methods do nothing (used by examples that never reach the host). -/
def noHost : Ctx := ⟨[], fun _ _ => ([], .ok .undef)⟩

/-- Initial interpreter state over `noHost`: the seeded global
environment at frame index 0, empty heap, empty trace. -/
def baseSt : St := (newInterpreter noHost ⟨[], [], []⟩).1

/-- Program for claim C1: a top-level return statement followed by a
sibling with an observable effect (`return 1; log(2)`). -/
def progC1 : Ast := .program
  [ .returnStmt (some (.lit (.num 1)))
  , .exprStmt (.call (.ident "log") [.lit (.num 2)]) ]

/-- Program for claim C2's counterexample: call an arrow function whose
block body completes without a return statement but whose last statement
has value 42 (`(() => { 42 })()`). -/
def progC2 : Ast :=
  .call (.arrowFn [] (.block [.exprStmt (.lit (.num 42))])) []

/-- Program for claim C2's positive part: `function makeAdder(a) { return
(b) => a + b } log(makeAdder(2)(3))` — the inner closure runs after
`makeAdder` has returned and still sees its local `a`. -/
def progAdder : Ast := .program
  [ .funcDecl "makeAdder" [.id "a"]
      (.block [.returnStmt (some (.arrowFn [.id "b"] (.binop "+" (.ident "a") (.ident "b"))))])
  , .exprStmt (.call (.ident "log")
      [.call (.call (.ident "makeAdder") [.lit (.num 2)]) [.lit (.num 3)]]) ]

/-- The specification's try/throw/catch/finally example as acorn sees it:
the throw statement is a node kind outside the evaluator's switch
(`try { throw new Error('x') } catch (e) { log(e.message) } finally {
log('done') }`). -/
def progC4 : Ast :=
  .tryStmt (.block [.other "ThrowStatement"])
    (some (some (.id "e"),
      .block [.exprStmt (.call (.ident "log") [.memberDot (.ident "e") "message"])]))
    (some (.block [.exprStmt (.call (.ident "log") [.lit (.str "done")])]))

/-- Program for claim C6: `let x = 1; function f() { x += 1; return x }
log(f()); log(f())`. -/
def progC6 : Ast := .program
  [ .varDecl [(.id "x", some (.lit (.num 1)))]
  , .funcDecl "f" []
      (.block [ .exprStmt (.assign "+=" (.ident "x") (.lit (.num 1)))
              , .returnStmt (some (.ident "x")) ])
  , .exprStmt (.call (.ident "log") [.call (.ident "f") []])
  , .exprStmt (.call (.ident "log") [.call (.ident "f") []]) ]

/-- Program for claim C7: `const { a } = { a: 5 }; a`. -/
def progC7 : Ast := .program
  [ .varDecl [(.objPat [(.id "a", .id "a")], some (.objExpr [.idKey "a" (.lit (.num 5))]))]
  , .exprStmt (.ident "a") ]

/-- Host for claim C5's example: `page.click` rejects on selector `#a`
and succeeds (with a visible host action) on anything else. -/
def clickHost : Ctx :=
  ⟨[("click", .method 0)],
   fun _ args =>
     match args with
     | [.str s] =>
         if s = "#a" then ([], .error (.errObj "click failed"))
         else ([.host ("clicked " ++ s)], .ok .undef)
     | _ => ([], .error (.errObj "bad args"))⟩

/-- The AST acorn produces for the fragment rewriting of `await
page.click(sel)`: an immediately-invoked async arrow returning the
click. -/
def clickAst (sel : String) : Ast := .program
  [ .exprStmt (.call (.arrowFn [] (.block
      [.returnStmt (some (.call (.memberDot (.ident "page") "click") [.lit (.str sel)]))])) []) ]

/-- The external parser on the two rewritten lines of claim C5's
fragment example. -/
def c5parse : String → Except String Ast := fun s =>
  if s = "(async () => \x7b return page.click('#a'); \x7d)()" then .ok (clickAst "#a")
  else if s = "(async () => \x7b return page.click('#b'); \x7d)()" then .ok (clickAst "#b")
  else .error "unexpected"

/-- The specification's fragment example source text. -/
def c5code : String := "await page.click('#a')\nawait page.click('#b')"

/-- Acorn on `x = 1`: a program whose single statement assigns 1 to
`x`. -/
def c9assign : Ast := .program [.exprStmt (.assign "=" (.ident "x") (.lit (.num 1)))]

/-- Acorn on `log(x)`. -/
def c9log : Ast := .program [.exprStmt (.call (.ident "log") [.ident "x"])]

/-- The external parser on the two lines of claim C9's fragment. -/
def c9parse : String → Except String Ast := fun s =>
  if s = "x = 1" then .ok c9assign
  else if s = "log(x)" then .ok c9log
  else .error "unexpected"

/-- Claim C9's fragment source text. -/
def c9code : String := "x = 1\nlog(x)"

/-- State for claim C10's witness: the seeded global environment with a
binding `x = 1` added to it. -/
def stX : St := define baseSt 0 "x" (.num 1)

/-- Host whose single method rejects with the `ReturnValue` sentinel
itself — the only way the evaluator's error channel can carry the
sentinel, exercising the defensive rethrow branch of
`evaluateTryStatement`. -/
def weirdHost : Ctx :=
  ⟨[("boom", .method 0)], fun _ _ => ([], .error (.returnVal (.num 1)))⟩

/-- Initial interpreter state over `weirdHost`. -/
def baseStW : St := (newInterpreter weirdHost ⟨[], [], []⟩).1

/-- A call of the rejecting host method through the proxy. -/
def boomCall : Ast := .call (.memberDot (.ident "page") "boom") []

/-- Initial interpreter state over `clickHost`. -/
def baseStClick : St := (newInterpreter clickHost ⟨[], [], []⟩).1

/-- External parser for the whole-program half of claim C5's example: a
complete program whose single statement is an unsupported throw. -/
def cProgParse : String → Except String Ast := fun s =>
  if s = "throw 1" then .ok (.program [.other "ThrowStatement"]) else .error "unexpected"

/-- Claim C1 counterexample: on a Program node whose first child yields
the Return sentinel, the evaluator does not stop: the sibling statement
is still evaluated (its `log(2)` effect appears in the trace) and the
program's result is the sibling's value, not the sentinel. -/
theorem claim_C1_counterexample :
    (evalNode noHost 10 progC1 0 baseSt).1.trace = [.ctx (.num 2)] ∧
    (evalNode noHost 10 progC1 0 baseSt).2 = .ok .undef ∧
    (evalNode noHost 10 progC1 0 baseSt).2 ≠ .ok (.returnVal (.num 1)) := by
  refine ⟨rfl, rfl, ?_⟩
  have h : (evalNode noHost 10 progC1 0 baseSt).2 = .ok .undef := rfl
  rw [h]
  simp

/-- Claim C1 (amended): Block nodes evaluate their children in sequence
in a freshly created child Environment and stop at once on a child whose
value is the Return sentinel, propagating it without evaluating the
remaining siblings; Program nodes evaluate their children in sequence but
do not intercept the sentinel — evaluation continues with the remaining
siblings regardless. -/
theorem claim_C1_amended :
    (∀ (ev : Ev) (s : Ast) (rest : List Ast) (env : Nat) (st st1 : St) (r prev : Value),
       ev s env st = (st1, .ok (.returnVal r)) →
       seqBlock ev (s :: rest) prev env st = (st1, .ok (.returnVal r))) ∧
    (∀ (ev : Ev) (s : Ast) (rest : List Ast) (env : Nat) (st st1 : St) (v prev : Value),
       ev s env st = (st1, .ok v) → v.isReturnVal = false →
       seqBlock ev (s :: rest) prev env st = seqBlock ev rest v env st1) ∧
    (∀ (ev : Ev) (s : Ast) (rest : List Ast) (env : Nat) (st st1 : St) (v prev : Value),
       ev s env st = (st1, .ok v) →
       seqProgram ev (s :: rest) prev env st = seqProgram ev rest v env st1) ∧
    (∀ (ctx : Ctx) (fuel : Nat) (body : List Ast) (env : Nat) (st : St),
       evalNode ctx (fuel + 1) (.block body) env st =
         seqBlock (fun a e s => evalNode ctx fuel a e s) body .undef
           (createEnvironment st [] (some env)).2 (createEnvironment st [] (some env)).1) := by
  refine ⟨?_, ?_, ?_, ?_⟩
  · intro ev s rest env st st1 r prev h
    simp [seqBlock, h]
  · intro ev s rest env st st1 v prev h hv
    cases v <;> simp_all [seqBlock, Value.isReturnVal]
  · intro ev s rest env st st1 v prev h
    simp [seqProgram, h]
  · intro ctx fuel body env st
    simp [evalNode, createEnvironment]

/-- Claim C1 witness: concrete instances of the three sequencing parts of
the amended theorem — a sentinel-valued first child stops a block and
propagates, a non-sentinel child continues a block, and a Program
continues past a sentinel-valued child. -/
theorem claim_C1_witness :
    seqBlock (fun a e s => evalNode noHost 5 a e s)
      [.returnStmt (some (.lit (.num 7))), .exprStmt (.lit (.num 8))] .undef 0 baseSt =
      (baseSt, .ok (.returnVal (.num 7))) ∧
    seqBlock (fun a e s => evalNode noHost 5 a e s)
      [.exprStmt (.lit (.num 1)), .exprStmt (.lit (.num 8))] .undef 0 baseSt =
      seqBlock (fun a e s => evalNode noHost 5 a e s)
        [.exprStmt (.lit (.num 8))] (.num 1) 0 baseSt ∧
    seqProgram (fun a e s => evalNode noHost 5 a e s)
      [.returnStmt (some (.lit (.num 7))), .exprStmt (.lit (.num 8))] .undef 0 baseSt =
      seqProgram (fun a e s => evalNode noHost 5 a e s)
        [.exprStmt (.lit (.num 8))] (.returnVal (.num 7)) 0 baseSt :=
  ⟨claim_C1_amended.1 _ _ _ _ _ _ _ _ rfl,
   claim_C1_amended.2.1 _ _ _ _ _ _ (.num 1) _ rfl rfl,
   claim_C1_amended.2.2.1 _ _ _ _ _ _ _ _ rfl⟩

/-- Claim C2 counterexample: calling a closure whose block body completes
without producing a Return sentinel yields the body's completion value
(the last statement's value, 42), not `undefined` as the claim states. -/
theorem claim_C2_counterexample :
    (evalNode noHost 10 progC2 0 baseSt).2 = .ok (.num 42) ∧
    (evalNode noHost 10 progC2 0 baseSt).2 ≠ .ok .undef := by
  refine ⟨rfl, ?_⟩
  have h : (evalNode noHost 10 progC2 0 baseSt).2 = .ok (.num 42) := rfl
  rw [h]
  simp

/-- Claim C2 (amended): calling a closure creates a new child Environment
whose parent is the closure's captured defining environment (not the call
site's), binds parameters positionally to the call arguments, evaluates
the body there, and returns the value carried by a Return sentinel if the
body produced one — otherwise the body's own completion value (which is
`undefined` only when that value is `undefined`).  The concrete
`makeAdder` program shows a returned closure still reaching its defining
function's local after that call has returned. -/
theorem claim_C2_amended :
    (∀ (ctx : Ctx) (ev : Ev) (st : St) (ps : List Param) (body : Ast) (cenv : Nat)
       (args : List Value),
       callFunction ctx ev st (.closure ps body cenv) args =
         applyClosure ev st ps body cenv args) ∧
    (∀ (st : St) (cenv : Nat),
       (createEnvironment st ([] : List (String × Value)) (some cenv)).1.envs[(createEnvironment st ([] : List (String × Value)) (some cenv)).2]? =
         some ⟨[], some cenv⟩) ∧
    (∀ (fr : Nat) (st : St) (name : String) (ps : List Param) (args : List Value),
       bindParams fr st (.id name :: ps) args =
         bindParams fr (define st fr name (args.headD .undef)) ps (args.drop 1)) ∧
    (∀ (ev : Ev) (st : St) (ps : List Param) (body : Ast) (cenv : Nat) (args : List Value)
       (st2 st3 : St) (v : Value),
       bindParams (createEnvironment st [] (some cenv)).2 (createEnvironment st [] (some cenv)).1
         ps args = (st2, .ok ()) →
       ev body (createEnvironment st [] (some cenv)).2 st2 = (st3, .ok (.returnVal v)) →
       applyClosure ev st ps body cenv args = (st3, .ok v)) ∧
    (∀ (ev : Ev) (st : St) (ps : List Param) (body : Ast) (cenv : Nat) (args : List Value)
       (st2 st3 : St) (v : Value),
       bindParams (createEnvironment st [] (some cenv)).2 (createEnvironment st [] (some cenv)).1
         ps args = (st2, .ok ()) →
       ev body (createEnvironment st [] (some cenv)).2 st2 = (st3, .ok v) →
       v.isReturnVal = false →
       applyClosure ev st ps body cenv args = (st3, .ok v)) ∧
    (evalNode noHost 30 progAdder 0 baseSt).1.trace = [.ctx (.num 5)] := by
  refine ⟨?_, ?_, ?_, ?_, ?_, rfl⟩
  · intro ctx ev st ps body cenv args
    simp [callFunction]
  · intro st cenv
    simp [createEnvironment]
  · intro fr st name ps args
    simp [bindParams]
  · intro ev st ps body cenv args st2 st3 v h1 h2
    simp [applyClosure, h1, h2]
  · intro ev st ps body cenv args st2 st3 v h1 h2 hv
    cases v <;> simp_all [applyClosure, Value.isReturnVal]

/-- Claim C2 witness: concrete instances of the closure-call parts — the
fresh frame's parent is the captured environment, a sentinel-carrying
body unwraps to its value, and a plain body value passes through. -/
theorem claim_C2_witness :
    (createEnvironment baseSt ([] : List (String × Value)) (some 0)).1.envs[(createEnvironment baseSt ([] : List (String × Value)) (some 0)).2]? =
      some ⟨[], some 0⟩ ∧
    applyClosure (fun a e s => evalNode noHost 5 a e s) baseSt []
      (.returnStmt (some (.lit (.num 9)))) 0 [] =
      ((createEnvironment baseSt [] (some 0)).1, .ok (.num 9)) ∧
    applyClosure (fun a e s => evalNode noHost 5 a e s) baseSt []
      (.lit (.num 3)) 0 [] =
      ((createEnvironment baseSt [] (some 0)).1, .ok (.num 3)) :=
  ⟨claim_C2_amended.2.1 baseSt 0,
   claim_C2_amended.2.2.2.1 _ _ _ _ _ _ _ _ _ rfl rfl,
   claim_C2_amended.2.2.2.2.1 _ _ _ _ _ _ _ _ (.num 3) rfl rfl rfl⟩

/-- Claim C10 counterexample: `delete x` with `x` undefined — the
argument is not a MemberExpression, yet the evaluator raises the
undefined-variable error instead of returning `true`, because it
evaluates the argument first. -/
theorem claim_C10_counterexample :
    (evalNode noHost 10 (.unary "delete" (.ident "x")) 0 baseSt).2 =
      .err (.errObj "Variable 'x' is not defined") := rfl

/-- Claim C10 (amended): for every unary `delete` whose argument is not a
MemberExpression, the evaluator first evaluates the argument — an error
there (for example an undefined identifier) propagates, and the
argument's own side effects occur — and otherwise returns `true` with the
state exactly as the argument's evaluation left it; the delete itself
never removes a variable binding. -/
theorem claim_C10_amended :
    (∀ (ctx : Ctx) (fuel : Nat) (arg : Ast) (env : Nat) (st st1 : St) (v : Value),
       isMemberNode arg = false →
       evalNode ctx fuel arg env st = (st1, .ok v) →
       evalNode ctx (fuel + 1) (.unary "delete" arg) env st = (st1, .ok (.bool true))) ∧
    (∀ (ctx : Ctx) (fuel : Nat) (arg : Ast) (env : Nat) (st st1 : St) (e : Value),
       evalNode ctx fuel arg env st = (st1, .err e) →
       evalNode ctx (fuel + 1) (.unary "delete" arg) env st = (st1, .err e)) := by
  constructor
  · intro ctx fuel arg env st st1 v hm ha
    cases arg <;> simp_all [evalNode, isMemberNode]
  · intro ctx fuel arg env st st1 e ha
    simp [evalNode, ha]

/-- Claim C10 witness: `delete x` with `x` defined returns `true` and
leaves the state (hence every frame, including the binding of `x`)
exactly as it was after evaluating the argument. -/
theorem claim_C10_witness :
    evalNode noHost 6 (.unary "delete" (.ident "x")) 0 stX = (stX, .ok (.bool true)) :=
  claim_C10_amended.1 noHost 5 (.ident "x") 0 stX stX (.num 1) rfl rfl

/-- Claim C8: logical expressions short-circuit — `&&` with a falsy left
operand and `||` with a truthy left operand return the left value with
the right subtree never evaluated (the state is exactly the post-left
state), and `??` evaluates its right operand exactly when the left value
is `null` or `undefined`. -/
theorem claim_C8_short_circuit :
    (∀ (ctx : Ctx) (fuel : Nat) (l r : Ast) (env : Nat) (st st1 : St) (v : Value),
       evalNode ctx fuel l env st = (st1, .ok v) → truthy v = false →
       evalNode ctx (fuel + 1) (.logical "&&" l r) env st = (st1, .ok v)) ∧
    (∀ (ctx : Ctx) (fuel : Nat) (l r : Ast) (env : Nat) (st st1 : St) (v : Value),
       evalNode ctx fuel l env st = (st1, .ok v) → truthy v = true →
       evalNode ctx (fuel + 1) (.logical "||" l r) env st = (st1, .ok v)) ∧
    (∀ (ctx : Ctx) (fuel : Nat) (l r : Ast) (env : Nat) (st st1 : St) (v : Value),
       evalNode ctx fuel l env st = (st1, .ok v) → v ≠ .nullV → v ≠ .undef →
       evalNode ctx (fuel + 1) (.logical "??" l r) env st = (st1, .ok v)) ∧
    (∀ (ctx : Ctx) (fuel : Nat) (l r : Ast) (env : Nat) (st st1 : St) (v : Value),
       evalNode ctx fuel l env st = (st1, .ok v) → (v = .nullV ∨ v = .undef) →
       evalNode ctx (fuel + 1) (.logical "??" l r) env st = evalNode ctx fuel r env st1) := by
  refine ⟨?_, ?_, ?_, ?_⟩
  · intro ctx fuel l r env st st1 v h ht
    simp [evalNode, h, ht]
  · intro ctx fuel l r env st st1 v h ht
    simp [evalNode, h, ht]
  · intro ctx fuel l r env st st1 v h h1 h2
    cases v <;> simp_all [evalNode]
  · intro ctx fuel l r env st st1 v h hv
    rcases hv with hv | hv <;> subst hv <;> simp [evalNode, h]

/-- Claim C8 witness: `false && boom` and `7 || boom` return the left
value without touching the undefined variable `boom`; `0 ?? boom` keeps
the falsy-but-non-nullish left value; `null ?? 5` evaluates the right
operand. -/
theorem claim_C8_witness :
    evalNode noHost 6 (.logical "&&" (.lit (.bool false)) (.ident "boom")) 0 baseSt =
      (baseSt, .ok (.bool false)) ∧
    evalNode noHost 6 (.logical "||" (.lit (.num 7)) (.ident "boom")) 0 baseSt =
      (baseSt, .ok (.num 7)) ∧
    evalNode noHost 6 (.logical "??" (.lit (.num 0)) (.ident "boom")) 0 baseSt =
      (baseSt, .ok (.num 0)) ∧
    evalNode noHost 6 (.logical "??" (.lit .nullLit) (.lit (.num 5))) 0 baseSt =
      evalNode noHost 5 (.lit (.num 5)) 0 baseSt :=
  ⟨claim_C8_short_circuit.1 noHost 5 _ _ 0 baseSt baseSt _ rfl rfl,
   claim_C8_short_circuit.2.1 noHost 5 _ _ 0 baseSt baseSt _ rfl rfl,
   claim_C8_short_circuit.2.2.1 noHost 5 _ _ 0 baseSt baseSt _ rfl (by simp) (by simp),
   claim_C8_short_circuit.2.2.2 noHost 5 _ _ 0 baseSt baseSt _ rfl (Or.inl rfl)⟩

/-- Claim C3: reading a method property through the dynamic proxy yields
the forwarding wrapper carrying the full dotted path, and invoking that
wrapper emits exactly one console log line — containing the dotted path
and the serialised arguments — before the host's own effects, and
forwards the unaltered arguments to the real method and the real method's
unaltered result to the caller. -/
theorem claim_C3_host_logging :
    (∀ (fields : List (String × HostVal)) (path key : String) (id : Nat),
       lookupAssoc fields key = some (.method id) →
       proxyGet fields path key =
         .hostMethod id (if path = "" then key else path ++ "." ++ key)) ∧
    (∀ (ctx : Ctx) (ev : Ev) (st : St) (id : Nat) (path : String) (args : List Value)
       (es : List LogEntry) (res : Except Value Value),
       ctx.hostCall id args = (es, res) →
       callFunction ctx ev st (.hostMethod id path) args =
         (pushTraces
            (pushTrace st (.console ("Calling " ++ path ++ "(" ++ serializeArgs st args ++ ")")))
            es,
          exceptToOut res)) := by
  constructor
  · intro fields path key id h
    simp [proxyGet, h]
  · intro ctx ev st id path args es res h
    cases res <;> simp [callFunction, h, exceptToOut]

/-- Claim C3 witness: the `clickHost` page proxy hands out
`page.click`'s wrapper, and invoking it on `"#b"` logs exactly one
`Calling page.click("#b")` console line followed by the host's own
action, returning the host's result. -/
theorem claim_C3_witness :
    proxyGet clickHost.pageFields "page" "click" = .hostMethod 0 "page.click" ∧
    callFunction clickHost (fun _ _ s => (s, Out.timeout)) baseSt
      (.hostMethod 0 "page.click") [.str "#b"] =
      (pushTraces
         (pushTrace baseSt
           (.console ("Calling " ++ "page.click" ++ "(" ++
             serializeArgs baseSt [.str "#b"] ++ ")")))
         [.host "clicked #b"],
       exceptToOut (.ok .undef)) :=
  ⟨claim_C3_host_logging.1 clickHost.pageFields "page" "click" 0 rfl,
   claim_C3_host_logging.2 clickHost (fun _ _ s => (s, Out.timeout)) baseSt 0 "page.click"
     [.str "#b"] [.host "clicked #b"] (.ok .undef) rfl⟩

/-- Claim C4 counterexample: the specification's try/throw/catch/finally
example cannot log `x` — `throw` is a node kind outside the evaluator's
switch, so the catch block logs the unsupported-node message and the
finalizer then logs `done`. -/
theorem claim_C4_counterexample :
    (evalNode noHost 20 progC4 0 baseSt).1.trace =
      [.ctx (.str "Unsupported node type: ThrowStatement"), .ctx (.str "done")] ∧
    ("Unsupported node type: ThrowStatement" : String) ≠ "x" := by
  exact ⟨rfl, by decide⟩

/-- Claim C4 (amended): a thrown error — but never a propagating Return
sentinel, which passes through untouched whether it arrives as the try
block's value or through the defensive rethrow branch — is bound to the
catch parameter in a fresh child Environment and the catch block is
evaluated; the finalizer, when present, runs exactly once on every path
(normal completion, caught error, uncaught error) after the try/catch
result is determined and before that result is returned.  The
specification's example program logs the unsupported-node message for its
throw statement and then `done` — not `x` then `done`. -/
theorem claim_C4_amended :
    (∀ (ctx : Ctx) (fuel : Nat) (blk : Ast) (h : Option (Option CParam × Ast)) (f : Ast)
       (env : Nat) (st st1 st2 : St) (v w : Value),
       evalNode ctx fuel blk env st = (st1, .ok v) →
       evalNode ctx fuel f env st1 = (st2, .ok w) →
       evalNode ctx (fuel + 1) (.tryStmt blk h (some f)) env st = (st2, .ok v)) ∧
    (∀ (ctx : Ctx) (fuel : Nat) (blk hbody f : Ast) (p : String) (env : Nat)
       (st st1 st2 st3 : St) (e u w : Value),
       evalNode ctx fuel blk env st = (st1, .err e) →
       e.isReturnVal = false →
       evalNode ctx fuel hbody (createEnvironment st1 [] (some env)).2
         (define (createEnvironment st1 [] (some env)).1
           (createEnvironment st1 [] (some env)).2 p e) = (st2, .ok u) →
       evalNode ctx fuel f env st2 = (st3, .ok w) →
       evalNode ctx (fuel + 1) (.tryStmt blk (some (some (.id p), hbody)) (some f)) env st =
         (st3, .ok u)) ∧
    (∀ (ctx : Ctx) (fuel : Nat) (blk : Ast) (h : Option (Option CParam × Ast)) (f : Ast)
       (env : Nat) (st st1 st2 : St) (r w : Value),
       evalNode ctx fuel blk env st = (st1, .err (.returnVal r)) →
       evalNode ctx fuel f env st1 = (st2, .ok w) →
       evalNode ctx (fuel + 1) (.tryStmt blk h (some f)) env st =
         (st2, .err (.returnVal r))) ∧
    (∀ (ctx : Ctx) (fuel : Nat) (blk f : Ast) (env : Nat) (st st1 st2 : St) (e w : Value),
       evalNode ctx fuel blk env st = (st1, .err e) →
       e.isReturnVal = false →
       evalNode ctx fuel f env st1 = (st2, .ok w) →
       evalNode ctx (fuel + 1) (.tryStmt blk none (some f)) env st = (st2, .err e)) ∧
    (evalNode noHost 20 progC4 0 baseSt).1.trace =
      [.ctx (.str "Unsupported node type: ThrowStatement"), .ctx (.str "done")] ∧
    (evalNode noHost 20 progC4 0 baseSt).2 = .ok .undef := by
  refine ⟨?_, ?_, ?_, ?_, rfl, rfl⟩
  · intro ctx fuel blk h f env st st1 st2 v w hb hf
    simp [evalNode, hb, hf]
  · intro ctx fuel blk hbody f p env st st1 st2 st3 e u w hb he hh hf
    cases e <;> simp_all [evalNode, Value.isReturnVal]
  · intro ctx fuel blk h f env st st1 st2 r w hb hf
    simp [evalNode, hb, hf]
  · intro ctx fuel blk f env st st1 st2 e w hb he hf
    cases e <;> simp_all [evalNode, Value.isReturnVal]

/-- Claim C4 witness: concrete instances of the amended try semantics —
normal completion survives the finalizer; a non-sentinel error is bound
to the catch parameter in a fresh child frame and the catch result
survives the finalizer; a sentinel arriving on the error channel (a host
rejection with the sentinel) skips the catch handler entirely; an error
with no handler propagates after the finalizer runs. -/
theorem claim_C4_witness :
    evalNode noHost 6 (.tryStmt (.lit (.num 1)) none (some (.lit (.num 2)))) 0 baseSt =
      (baseSt, .ok (.num 1)) ∧
    evalNode noHost 6
      (.tryStmt (.other "Boom") (some (some (.id "e"), .lit (.num 3)))
        (some (.lit (.num 4)))) 0 baseSt =
      (define (createEnvironment baseSt [] (some 0)).1
        (createEnvironment baseSt [] (some 0)).2 "e"
        (.errObj "Unsupported node type: Boom"), .ok (.num 3)) ∧
    evalNode weirdHost 6
      (.tryStmt boomCall (some (some (.id "e"), .lit (.num 99)))
        (some (.lit (.num 4)))) 0 baseStW =
      (pushTrace baseStW (.console "Calling page.boom()"), .err (.returnVal (.num 1))) ∧
    evalNode noHost 6 (.tryStmt (.other "Boom") none (some (.lit (.num 4)))) 0 baseSt =
      (baseSt, .err (.errObj "Unsupported node type: Boom")) :=
  ⟨claim_C4_amended.1 noHost 5 _ none _ 0 baseSt baseSt baseSt (.num 1) (.num 2) rfl rfl,
   claim_C4_amended.2.1 noHost 5 (.other "Boom") (.lit (.num 3)) (.lit (.num 4)) "e" 0
     baseSt baseSt _ _ (.errObj "Unsupported node type: Boom") (.num 3) (.num 4)
     rfl rfl rfl rfl,
   claim_C4_amended.2.2.1 weirdHost 5 boomCall (some (some (.id "e"), .lit (.num 99)))
     (.lit (.num 4)) 0 baseStW (pushTrace baseStW (.console "Calling page.boom()"))
     (pushTrace baseStW (.console "Calling page.boom()")) (.num 1) (.num 4) rfl rfl,
   claim_C4_amended.2.2.2.1 noHost 5 (.other "Boom") (.lit (.num 4)) 0 baseSt baseSt baseSt
     (.errObj "Unsupported node type: Boom") (.num 4) rfl rfl rfl⟩

/-- The assignment walk mutates exactly the first frame along the scope
chain that defines the name: `walkAssign` equals a `find?` over the
chain's frame indices, applying the operator at the found frame. -/
theorem walkAssign_first_frame (name op : String) (right : Value) :
    ∀ (fuel : Nat) (st : St) (cur : Option Nat),
      walkAssign st fuel cur name op right =
        match List.find? (fun r => frameDefines st.envs r name) (chainRefs st.envs fuel cur) with
        | none => none
        | some r =>
            match st.envs[r]? with
            | none => none
            | some fr =>
                match lookupAssoc fr.vars name with
                | some old =>
                    match applyAssignOp st.heap op old right with
                    | .ok nv => some (define st r name nv, .ok nv)
                    | .error e => some (st, .err e)
                | none => none := by
  intro fuel
  induction fuel with
  | zero => intro st cur; simp [walkAssign, chainRefs]
  | succ f ih =>
      intro st cur
      cases cur with
      | none => simp [walkAssign, chainRefs]
      | some r =>
          cases h1 : st.envs[r]? with
          | none => simp [walkAssign, chainRefs, h1]
          | some fr =>
              cases h2 : lookupAssoc fr.vars name with
              | some old =>
                  have hd : frameDefines st.envs r name = true := by
                    simp [frameDefines, h1, h2]
                  simp [walkAssign, chainRefs, h1, h2, hd]
              | none =>
                  have hd : frameDefines st.envs r name = false := by
                    simp [frameDefines, h1, h2]
                  simp [walkAssign, chainRefs, h1, h2, hd, ih]

/-- Claim C6: an identifier assignment walks the Environment chain
outward and mutates the first frame that already defines the name (the
walk is exactly a first-match search along the chain); if no frame
defines it, a plain `=` defines the name in the current environment,
while any other assignment operator raises the undefined-variable
operator error; the specification's example yields 2 then 3. -/
theorem claim_C6_assignment :
    (∀ (st : St) (fuel : Nat) (cur : Option Nat) (name op : String) (right : Value),
       walkAssign st fuel cur name op right =
         match List.find? (fun r => frameDefines st.envs r name) (chainRefs st.envs fuel cur) with
         | none => none
         | some r =>
             match st.envs[r]? with
             | none => none
             | some fr =>
                 match lookupAssoc fr.vars name with
                 | some old =>
                     match applyAssignOp st.heap op old right with
                     | .ok nv => some (define st r name nv, .ok nv)
                     | .error e => some (st, .err e)
                 | none => none) ∧
    (∀ (ctx : Ctx) (fuel : Nat) (env : Nat) (st st1 : St) (name op : String) (rhs : Ast)
       (right : Value) (res : Res Value),
       evalNode ctx fuel rhs env st = (st1, .ok right) →
       walkAssign st1 st1.envs.length (some env) name op right = some res →
       evalNode ctx (fuel + 1) (.assign op (.ident name) rhs) env st = res) ∧
    (∀ (ctx : Ctx) (fuel : Nat) (env : Nat) (st st1 : St) (name : String) (rhs : Ast)
       (right : Value),
       evalNode ctx fuel rhs env st = (st1, .ok right) →
       walkAssign st1 st1.envs.length (some env) name "=" right = none →
       evalNode ctx (fuel + 1) (.assign "=" (.ident name) rhs) env st =
         (define st1 env name right, .ok right)) ∧
    (∀ (ctx : Ctx) (fuel : Nat) (env : Nat) (st st1 : St) (name op : String) (rhs : Ast)
       (right : Value),
       evalNode ctx fuel rhs env st = (st1, .ok right) →
       walkAssign st1 st1.envs.length (some env) name op right = none →
       op ≠ "=" →
       evalNode ctx (fuel + 1) (.assign op (.ident name) rhs) env st =
         (st1, .err (.errObj ("Cannot use operator " ++ op ++ " on undefined variable " ++ name)))) ∧
    (evalNode noHost 30 progC6 0 baseSt).1.trace = [.ctx (.num 2), .ctx (.num 3)] := by
  refine ⟨?_, ?_, ?_, ?_, rfl⟩
  · intro st fuel cur name op right
    exact walkAssign_first_frame name op right fuel st cur
  · intro ctx fuel env st st1 name op rhs right res h1 h2
    simp [evalNode, h1, h2]
  · intro ctx fuel env st st1 name rhs right h1 h2
    simp [evalNode, h1, h2]
  · intro ctx fuel env st st1 name op rhs right h1 h2 hop
    simp [evalNode, h1, h2, hop]

/-- Claim C6 witness: a first assignment to an undefined `y` defines it
in the current frame; a compound assignment to the undefined `y` raises
the operator error; `x += 1` with `x = 1` defined in the global frame
mutates it there (through the walk) and returns 2. -/
theorem claim_C6_witness :
    evalNode noHost 6 (.assign "=" (.ident "y") (.lit (.num 1))) 0 baseSt =
      (define baseSt 0 "y" (.num 1), .ok (.num 1)) ∧
    evalNode noHost 6 (.assign "+=" (.ident "y") (.lit (.num 1))) 0 baseSt =
      (baseSt, .err (.errObj "Cannot use operator += on undefined variable y")) ∧
    evalNode noHost 6 (.assign "+=" (.ident "x") (.lit (.num 1))) 0 stX =
      (define stX 0 "x" (.num 2), .ok (.num 2)) :=
  ⟨claim_C6_assignment.2.2.1 noHost 5 0 baseSt baseSt "y" (.lit (.num 1)) (.num 1) rfl rfl,
   claim_C6_assignment.2.2.2.1 noHost 5 0 baseSt baseSt "y" "+=" (.lit (.num 1)) (.num 1)
     rfl rfl (by decide),
   claim_C6_assignment.2.1 noHost 5 0 stX stX "x" "+=" (.lit (.num 1)) (.num 1)
     (define stX 0 "x" (.num 2), .ok (.num 2)) rfl rfl⟩

/-- Claim C7: variable declarations support simple identifier targets and
single-level object/array destructuring with direct identifier
sub-bindings (`const {a} = {a: 5}` binds `a` to 5), and every nested or
otherwise unsupported destructuring shape raises the source's explicit
unsupported-pattern errors instead of binding anything. -/
theorem claim_C7_destructuring :
    (evalNode noHost 20 progC7 0 baseSt).2 = .ok (.num 5) ∧
    (∀ (env : Nat) (rv : Value) (st : St) (k kind : String)
       (rest : List (PatKey × PatTarget)),
       destructureObj env rv st ((.id k, .other kind) :: rest) =
         (st, .err (.errObj ("Unsupported destructuring pattern: " ++ kind)))) ∧
    (∀ (env : Nat) (rv : Value) (st : St) (kind : String)
       (rest : List (Option ArrElemPat)) (i : Nat),
       destructureArr env rv st (some (.other kind) :: rest) i =
         (st, .err (.errObj ("Unsupported array destructuring element: " ++ kind)))) ∧
    (∀ (ev : Ev) (rest : List (Pattern × Option Ast)) (env : Nat) (st : St)
       (kind : String) (init : Option Ast),
       evalDecls ev ((.other kind, init) :: rest) env st =
         (st, .err (.errObj ("Unsupported variable declaration pattern: " ++ kind)))) ∧
    (∀ (env : Nat) (st : St) (k varName : String) (rest : List (PatKey × PatTarget))
       (rv w : Value),
       getProp st rv k = .ok w →
       destructureObj env rv st ((.id k, .id varName) :: rest) =
         destructureObj env rv (define st env varName w) rest) := by
  refine ⟨rfl, ?_, ?_, ?_, ?_⟩
  · intro env rv st k kind rest
    simp [destructureObj]
  · intro env rv st kind rest i
    simp [destructureArr]
  · intro ev rest env st kind init
    simp [evalDecls]
  · intro env st k varName rest rv w h
    simp [destructureObj, h]

/-- Claim C7 witness: destructuring the `message` property of an `Error`
value binds the alias and continues with the remaining pattern
properties. -/
theorem claim_C7_witness :
    destructureObj 0 (.errObj "m") baseSt [(.id "message", .id "msg")] =
      destructureObj 0 (.errObj "m") (define baseSt 0 "msg" (.str "m")) [] :=
  claim_C7_destructuring.2.2.2.2 0 baseSt "message" "msg" [] (.errObj "m") (.str "m") rfl

/-- Claim C5: in fragment mode every line is parsed and evaluated
independently — a line whose evaluation fails is reported through the
context log callback and the loop continues with the next line — while a
complete program is parsed and evaluated as one unit, the first failing
statement stopping its siblings and the failure being logged and
rethrown; the specification's two-click fragment performs both clicks
even though the first one fails. -/
theorem claim_C5_fragment_isolation :
    (∀ (parse : String → Except String Ast) (ctx : Ctx) (fuel g : Nat) (l : String)
       (rest : List String) (st st1 : St),
       processLine parse ctx fuel g l st = (st1, .ok ()) →
       runLines parse ctx fuel g (l :: rest) st = runLines parse ctx fuel g rest st1) ∧
    (∀ (parse : String → Except String Ast) (ctx : Ctx) (fuel g : Nat) (code t : String)
       (st st1 st2 : St) (ast : Ast) (e : Value),
       parseScriptM parse code st = (st1, .ok ast) →
       evalNode ctx fuel ast g st1 = (st2, .err e) →
       execFragmentLine parse ctx fuel g code t st = lineFail st2 t e) ∧
    (∀ (st : St) (t : String) (e : Value),
       (lineFail st t e).2 = .ok () ∧
       (lineFail st t e).1.trace = st.trace ++
         [.console ("Error executing line \"" ++ t ++ "\": " ++
            jsToString st.heap (st.heap.length + 1) e),
          .ctx (.str ("Error in line \"" ++ t ++ "\": " ++ errMessageOf st.heap e))]) ∧
    (∀ (parse : String → Except String Ast) (ctx : Ctx) (fuel : Nat) (code : String)
       (ast : Ast) (st3 : St) (e : Value),
       isFunctionBody code = false →
       parse code = .ok ast →
       evalNode ctx fuel ast
         (newInterpreter ctx ⟨[], [], [.console ("Executing script code: " ++ code)]⟩).2
         (newInterpreter ctx ⟨[], [], [.console ("Executing script code: " ++ code)]⟩).1 =
         (st3, .err e) →
       executeScript parse ctx fuel code = scriptCatch st3 e) ∧
    (∀ (st : St) (e : Value), (scriptCatch st e).2 = .err e) ∧
    (∀ (ev : Ev) (s : Ast) (rest : List Ast) (prev : Value) (env : Nat) (st st1 : St)
       (e : Value),
       ev s env st = (st1, .err e) →
       seqProgram ev (s :: rest) prev env st = (st1, .err e)) ∧
    (executeScript c5parse clickHost 30 c5code).1.trace =
      [.console ("Executing script code: " ++ c5code),
       .console "Detected function body fragment, executing directly",
       .console "Calling page.click(\"#a\")",
       .console "Error executing line \"await page.click('#a')\": Error: click failed",
       .ctx (.str "Error in line \"await page.click('#a')\": click failed"),
       .console "Calling page.click(\"#b\")",
       .host "clicked #b"] ∧
    (executeScript c5parse clickHost 30 c5code).2 = .ok () := by
  refine ⟨?_, ?_, ?_, ?_, ?_, ?_, rfl, rfl⟩
  · intro parse ctx fuel g l rest st st1 h
    simp [runLines, h]
  · intro parse ctx fuel g code t st st1 st2 ast e h1 h2
    simp [execFragmentLine, h1, h2]
  · intro st t e
    exact ⟨rfl, rfl⟩
  · intro parse ctx fuel code ast st3 e hc hp he
    simp_all [executeScript, parseScriptM, newInterpreter]
  · intro st e
    rfl
  · intro ev s rest prev env st st1 e h
    simp [seqProgram, h]

/-- Claim C5 witness: concrete instances — a successful click line
continues the loop with the remaining lines; the failing `#a` click line
is absorbed into a `lineFail`; the complete program `throw 1` is
rethrown through the top-level catch; an erroring first statement stops
a program's siblings. -/
theorem claim_C5_witness :
    runLines c5parse clickHost 30 0 ["await page.click('#b')", "rest"] baseStClick =
      runLines c5parse clickHost 30 0 ["rest"]
        (processLine c5parse clickHost 30 0 "await page.click('#b')" baseStClick).1 ∧
    execFragmentLine c5parse clickHost 30 0
      "(async () => \x7b return page.click('#a'); \x7d)()" "await page.click('#a')"
      baseStClick =
      lineFail (evalNode clickHost 30 (clickAst "#a") 0 baseStClick).1
        "await page.click('#a')" (.errObj "click failed") ∧
    executeScript cProgParse noHost 10 "throw 1" =
      scriptCatch
        (newInterpreter noHost
          ⟨[], [], [.console ("Executing script code: " ++ "throw 1")]⟩).1
        (.errObj "Unsupported node type: ThrowStatement") ∧
    seqProgram (fun a e s => evalNode noHost 5 a e s)
      [.ident "nope", .exprStmt (.lit (.num 1))] .undef 0 baseSt =
      (baseSt, .err (.errObj "Variable 'nope' is not defined")) :=
  ⟨claim_C5_fragment_isolation.1 c5parse clickHost 30 0 "await page.click('#b')" ["rest"]
     baseStClick _ rfl,
   claim_C5_fragment_isolation.2.1 c5parse clickHost 30 0
     "(async () => \x7b return page.click('#a'); \x7d)()" "await page.click('#a')"
     baseStClick baseStClick _ (clickAst "#a") (.errObj "click failed") rfl rfl,
   claim_C5_fragment_isolation.2.2.2.1 cProgParse noHost 10 "throw 1"
     (.program [.other "ThrowStatement"]) _ (.errObj "Unsupported node type: ThrowStatement")
     rfl rfl rfl,
   claim_C5_fragment_isolation.2.2.2.2.2.1 (fun a e s => evalNode noHost 5 a e s)
     (.ident "nope") [.exprStmt (.lit (.num 1))] .undef 0 baseSt baseSt
     (.errObj "Variable 'nope' is not defined") rfl⟩

/-- Claim C9: fragment mode creates a single interpreter with one global
Environment for the whole fragment and reuses it for every line — the
loop threads one state with one global frame index through all lines —
so a binding made by an earlier line (`x = 1`) is visible to a later
line (`log(x)` logs 1) although each line is parsed as its own program. -/
theorem claim_C9_shared_interpreter :
    (∀ (parse : String → Except String Ast) (ctx : Ctx) (fuel : Nat) (code : String),
       isFunctionBody code = true →
       executeScript parse ctx fuel code =
         runLines parse ctx fuel
           (newInterpreter ctx
             (pushTrace ⟨[], [], [.console ("Executing script code: " ++ code)]⟩
               (.console "Detected function body fragment, executing directly"))).2
           (splitLines code)
           (newInterpreter ctx
             (pushTrace ⟨[], [], [.console ("Executing script code: " ++ code)]⟩
               (.console "Detected function body fragment, executing directly"))).1) ∧
    (∀ (parse : String → Except String Ast) (ctx : Ctx) (fuel g : Nat) (l : String)
       (rest : List String) (st : St),
       (processLine parse ctx fuel g l st).2 = .ok () →
       runLines parse ctx fuel g (l :: rest) st =
         runLines parse ctx fuel g rest (processLine parse ctx fuel g l st).1) ∧
    (executeScript c9parse clickHost 30 c9code).1.trace =
      [.console ("Executing script code: " ++ c9code),
       .console "Detected function body fragment, executing directly",
       .ctx (.num 1)] ∧
    lookupEnv (executeScript c9parse clickHost 30 c9code).1.envs 1 0 "x" =
      some (.num 1) := by
  refine ⟨?_, ?_, rfl, rfl⟩
  · intro parse ctx fuel code h
    simp [executeScript, h]
  · intro parse ctx fuel g l rest st h
    cases hp : processLine parse ctx fuel g l st with
    | mk st1 o => cases o <;> simp_all [runLines]

/-- Claim C9 witness: the fragment classification of `x = 1\nlog(x)`
routes it through the single-interpreter loop, and the loop's first line
hands its resulting state to the remaining lines. -/
theorem claim_C9_witness :
    executeScript c9parse clickHost 30 c9code =
      runLines c9parse clickHost 30
        (newInterpreter clickHost
          (pushTrace ⟨[], [], [.console ("Executing script code: " ++ c9code)]⟩
            (.console "Detected function body fragment, executing directly"))).2
        (splitLines c9code)
        (newInterpreter clickHost
          (pushTrace ⟨[], [], [.console ("Executing script code: " ++ c9code)]⟩
            (.console "Detected function body fragment, executing directly"))).1 ∧
    runLines c9parse clickHost 30 0 ["x = 1", "log(x)"] baseStClick =
      runLines c9parse clickHost 30 0 ["log(x)"]
        (processLine c9parse clickHost 30 0 "x = 1" baseStClick).1 :=
  ⟨claim_C9_shared_interpreter.1 c9parse clickHost 30 c9code rfl,
   claim_C9_shared_interpreter.2.1 c9parse clickHost 30 0 "x = 1" ["log(x)"]
     baseStClick rfl⟩

